import Mathlib

/-!
# TruthLens fact-check client: claim submission and panel rendering

A shallow embedding of `src/frontend/factcheck.js`.

* JavaScript strings are sequences of UTF-16 code units (`JStr`), so that
  `length`, `substring` and `trim` count what the browser counts.
* Values obtained from `response.json()` are `JVal`; numbers are integers
  (the service sends integer confidences and percentages), doubles are not
  modelled.
* The page is a record of the regions the script writes to, together with
  logs of the outside calls it makes (requests, chart and graph widgets,
  downloads, alerts).
* A handler or renderer returns an `Outcome`: the page as it stands when
  the call ends, and the exception that left it, if any.
-/

namespace TruthLens

/-! ## Strings -/

/-- A JavaScript string: its UTF-16 code units. -/
abbrev JStr := List Nat

/-- UTF-16 encoding of a literal of the script. -/
def utf16 (s : String) : JStr :=
  s.toList.flatMap fun c =>
    if c.toNat < 0x10000 then [c.toNat]
    else [0xD800 + (c.toNat - 0x10000) / 0x400, 0xDC00 + (c.toNat - 0x10000) % 0x400]

/-- White space and line terminators, the code units `String.prototype.trim` strips. -/
def isJsSpace (c : Nat) : Bool :=
  c == 0x09 || c == 0x0A || c == 0x0B || c == 0x0C || c == 0x0D || c == 0x20 ||
  c == 0xA0 || c == 0x1680 || (0x2000 ≤ c && c ≤ 0x200A) || c == 0x2028 ||
  c == 0x2029 || c == 0x202F || c == 0x205F || c == 0x3000 || c == 0xFEFF

/-- The method `String.prototype.trim`. -/
def trim (s : JStr) : JStr :=
  ((s.dropWhile isJsSpace).reverse.dropWhile isJsSpace).reverse

/-- The method `String.prototype.toLowerCase` on the ASCII letters; other code
units are kept as they are (the verdict labels of the service are ASCII words). -/
def toLowerCase (s : JStr) : JStr :=
  s.map fun c => if 0x41 ≤ c ∧ c ≤ 0x5A then c + 0x20 else c

/-- The call `s.substring(0, n)`. -/
def substring0 (s : JStr) (n : Nat) : JStr := s.take n

/-- Decimal text of an integer, as `Number.prototype.toString` prints it. -/
def intText (n : Int) : JStr := utf16 (toString n)

/-- The double quote character. -/
def dq : JStr := [0x22]

/-- The line feed character. -/
def nl : JStr := [0x0A]

/-! ## Values -/

/-- A JavaScript value as the script meets it: a parsed JSON document, or
`undefined` where a property is missing. A `num` is a JSON number that is an
integer (of magnitude below `2 ^ 53`, so that it prints in plain decimal). The
entries of `obj` are the own properties of the object in enumeration order,
each key once. -/
inductive JVal where
  | undefined
  | null
  | bool (b : Bool)
  | num (n : Int)
  | str (s : JStr)
  | arr (xs : List JVal)
  | obj (kvs : List (JStr × JVal))

/-- The exceptions the handlers can meet. -/
inductive JsError where
  /-- A property read on `undefined` or `null`, or a call of something that is not a function. -/
  | typeError
  /-- The promise of `fetch` is rejected (the transport failed). -/
  | fetchFailed
  /-- The promise of `response.json()` is rejected (the body is not JSON). -/
  | syntaxError
  /-- The error `new Error("Ledger API error")`. -/
  | ledgerApi
  deriving DecidableEq

/-- Truthiness (`ToBoolean`). -/
def truthy : JVal → Bool
  | .undefined => false
  | .null => false
  | .bool b => b
  | .num n => n != 0
  | .str s => !s.isEmpty
  | .arr _ => true
  | .obj _ => true

/-- The operator `a || b`. -/
def orElse (a b : JVal) : JVal := if truthy a then a else b

/-- Own property lookup in the entries of an object. -/
def lookupKey (k : JStr) : List (JStr × JVal) → JVal
  | [] => .undefined
  | (k', v) :: rest => if k' = k then v else lookupKey k rest

/-- The value of `v.name` for a value that is neither `undefined` nor `null`
and a `name` that is not an inherited member: an own property of an object,
`length` of a string or array, otherwise `undefined`. -/
def getOwn (v : JVal) (name : String) : JVal :=
  match v with
  | .obj kvs => lookupKey (utf16 name) kvs
  | .str s => if name = "length" then .num s.length else .undefined
  | .arr xs => if name = "length" then .num xs.length else .undefined
  | _ => .undefined

/-- The property read `v.name`: a `TypeError` on `undefined` and `null`. -/
def prop (v : JVal) (name : String) : Except JsError JVal :=
  match v with
  | .undefined => .error .typeError
  | .null => .error .typeError
  | _ => .ok (getOwn v name)

/-- The value of `v[i]` for a value that is neither `undefined` nor `null`. -/
def getIndex (v : JVal) (i : Nat) : JVal :=
  match v with
  | .arr xs => xs.getD i .undefined
  | .str s => if i < s.length then .str [s.getD i 0] else .undefined
  | .obj kvs => lookupKey (utf16 (toString i)) kvs
  | _ => .undefined

/-- The indexed read `v[i]`: a `TypeError` on `undefined` and `null`. -/
def index (v : JVal) (i : Nat) : Except JsError JVal :=
  match v with
  | .undefined => .error .typeError
  | .null => .error .typeError
  | _ => .ok (getIndex v i)

mutual
/-- String conversion (`ToString`), as template literals and `+` apply it. -/
def toStr : JVal → JStr
  | .undefined => utf16 "undefined"
  | .null => utf16 "null"
  | .bool true => utf16 "true"
  | .bool false => utf16 "false"
  | .num n => intText n
  | .str s => s
  | .arr xs => joinComma xs
  | .obj _ => utf16 "[object Object]"
/-- The method `Array.prototype.join` with the default separator: `null` and
`undefined` entries print as the empty string. -/
def joinComma : List JVal → JStr
  | [] => []
  | [x] => toStrEntry x
  | x :: y :: rest => toStrEntry x ++ utf16 "," ++ joinComma (y :: rest)
/-- One entry inside `joinComma`. -/
def toStrEntry : JVal → JStr
  | .undefined => []
  | .null => []
  | .bool true => utf16 "true"
  | .bool false => utf16 "false"
  | .num n => intText n
  | .str s => s
  | .arr xs => joinComma xs
  | .obj _ => utf16 "[object Object]"
end

/-- What the setter of `innerText` stores: `null` becomes the empty string,
any other value its string conversion. -/
def innerTextOf : JVal → JStr
  | .null => []
  | v => toStr v

/-- Value of a digit character. -/
def digitVal (c : Nat) : Option Nat :=
  if 0x30 ≤ c ∧ c ≤ 0x39 then some (c - 0x30) else none

/-- A non-empty run of decimal digits read as a natural number. -/
def digitsVal : JStr → Option Nat
  | [] => none
  | cs => cs.foldlM (fun acc c => (digitVal c).map fun d => 10 * acc + d) 0

/-- Number conversion of a string (`StringToNumber`) for the empty string and
signed decimal integer literals, `none` standing for `NaN`. Literals with a
fraction, an exponent or a radix mark denote doubles and are left to `NaN`. -/
def strToNumber (s : JStr) : Option Int :=
  match trim s with
  | [] => some 0
  | 0x2D :: cs => (digitsVal cs).map fun n => - (n : Int)
  | 0x2B :: cs => (digitsVal cs).map fun n => (n : Int)
  | cs => (digitsVal cs).map fun n => (n : Int)

/-- Number conversion (`ToNumber`), `none` standing for `NaN`. -/
def toNumber : JVal → Option Int
  | .undefined => none
  | .null => some 0
  | .bool true => some 1
  | .bool false => some 0
  | .num n => some n
  | .str s => strToNumber s
  | .arr xs => strToNumber (joinComma xs)
  | .obj _ => none

/-- The comparison `v > 50`. -/
def gt50 (v : JVal) : Bool :=
  match toNumber v with
  | some n => decide (50 < n)
  | none => false

/-! ## JSON text -/

/-- A lower-case hexadecimal digit. -/
def hexDigit (n : Nat) : Nat := if n < 10 then 0x30 + n else 0x61 + (n - 10)

/-- The escape `\uXXXX` of a code unit. -/
def uEscape (c : Nat) : JStr :=
  [0x5C, 0x75, hexDigit (c / 0x1000 % 16), hexDigit (c / 0x100 % 16),
    hexDigit (c / 0x10 % 16), hexDigit (c % 16)]

/-- A leading surrogate. -/
def isHigh (c : Nat) : Bool := 0xD800 ≤ c && c ≤ 0xDBFF

/-- A trailing surrogate. -/
def isLow (c : Nat) : Bool := 0xDC00 ≤ c && c ≤ 0xDFFF

/-- Whether the text starts with a trailing surrogate. -/
def startsLow : JStr → Bool
  | [] => false
  | d :: _ => isLow d

/-- The characters of `QuoteJSONString` between the quotes; `paired` tells
that the previous code unit was a leading surrogate waiting for this one. -/
def quoteBody (paired : Bool) : JStr → JStr
  | [] => []
  | c :: rest =>
    if c = 0x08 then [0x5C, 0x62] ++ quoteBody false rest
    else if c = 0x09 then [0x5C, 0x74] ++ quoteBody false rest
    else if c = 0x0A then [0x5C, 0x6E] ++ quoteBody false rest
    else if c = 0x0C then [0x5C, 0x66] ++ quoteBody false rest
    else if c = 0x0D then [0x5C, 0x72] ++ quoteBody false rest
    else if c = 0x22 then [0x5C, 0x22] ++ quoteBody false rest
    else if c = 0x5C then [0x5C, 0x5C] ++ quoteBody false rest
    else if c < 0x20 then uEscape c ++ quoteBody false rest
    else if isHigh c then
      if startsLow rest then c :: quoteBody true rest
      else uEscape c ++ quoteBody false rest
    else if isLow c then
      if paired then c :: quoteBody false rest
      else uEscape c ++ quoteBody false rest
    else c :: quoteBody false rest

/-- The operation `QuoteJSONString`. -/
def quoteJson (s : JStr) : JStr := dq ++ quoteBody false s ++ dq

/-- Brackets around the serialised parts of an array or object; `gap` is the
indentation unit and `stepback` the indentation of the enclosing level. -/
def wrapJson (opn cls gap stepback : JStr) (parts : List JStr) : JStr :=
  if parts.isEmpty then opn ++ cls
  else if gap.isEmpty then opn ++ (utf16 ",").intercalate parts ++ cls
  else opn ++ nl ++ (stepback ++ gap)
    ++ (utf16 "," ++ nl ++ (stepback ++ gap)).intercalate parts
    ++ nl ++ stepback ++ cls

mutual
/-- The operation `SerializeJSONProperty`: `none` for `undefined`. -/
def serialize (gap ind : JStr) : JVal → Option JStr
  | .undefined => none
  | .null => some (utf16 "null")
  | .bool true => some (utf16 "true")
  | .bool false => some (utf16 "false")
  | .num n => some (intText n)
  | .str s => some (quoteJson s)
  | .arr xs => some (wrapJson (utf16 "[") (utf16 "]") gap ind (serializeItems gap (ind ++ gap) xs))
  | .obj kvs =>
    some (wrapJson [0x7B] [0x7D] gap ind (serializeMembers gap (ind ++ gap) kvs))
/-- The entries of an array: `undefined` prints as `null`. -/
def serializeItems (gap ind : JStr) : List JVal → List JStr
  | [] => []
  | x :: rest => (serialize gap ind x).getD (utf16 "null") :: serializeItems gap ind rest
/-- The members of an object: a member whose value is `undefined` is left out. -/
def serializeMembers (gap ind : JStr) : List (JStr × JVal) → List JStr
  | [] => []
  | (k, v) :: rest =>
    match serialize gap ind v with
    | none => serializeMembers gap ind rest
    | some t =>
      (quoteJson k ++ utf16 ":" ++ (if gap.isEmpty then [] else utf16 " ") ++ t)
        :: serializeMembers gap ind rest
end

/-- The text of `JSON.stringify(v, null, space)` as a template literal or a
`Blob` receives it (`undefined` at top level prints as the word). -/
def jsonStringify (v : JVal) (space : Nat) : JStr :=
  (serialize (List.replicate space 0x20) [] v).getD (utf16 "undefined")

/-! ## The page -/

/-- A file chosen in the `claim-image` input. -/
structure File where
  name : JStr
  bytes : List Nat
  deriving DecidableEq

/-- A value of a multipart field. -/
inductive FormValue where
  | text (s : JStr)
  | file (f : File)
  deriving DecidableEq

/-- A `FormData` object: its entries in the order of the `append` calls. -/
abbrev FormData := List (JStr × FormValue)

/-- The method `FormData.prototype.append`. -/
def FormData.append (fd : FormData) (name : String) (v : FormValue) : FormData :=
  fd ++ [(utf16 name, v)]

/-- The method `FormData.prototype.getAll`. -/
def FormData.getAll (fd : FormData) (name : String) : List FormValue :=
  (fd.filter fun e => e.1 = utf16 name).map Prod.snd

/-- The body of a request. -/
inductive Body where
  | empty
  | form (fd : FormData)
  | json (text : JStr)
  deriving DecidableEq

/-- A call of `fetch`. -/
structure Request where
  method : JStr
  url : JStr
  body : Body
  deriving DecidableEq

/-- What the network gives back to one `fetch`: the promise is rejected, or
a response arrives with its `ok` flag and its body, `none` when the body
is not JSON. -/
inductive NetReply where
  | rejected
  | response (ok : Bool) (body : Option JVal)

/-- A child of `#chat-window`: a message made by `addMessage`, or a verdict
card with the data its `download-json` button is bound to, if any. -/
inductive ChatNode where
  | message (className text : JStr)
  | card (className innerHTML : JStr) (onclick : Option JVal)

/-- A chip of the fallacy and bias regions. -/
structure Chip where
  className : JStr
  innerText : JStr
  deriving DecidableEq

/-- An element handed to the graph widget. -/
inductive CyElement where
  | node (id label role : JVal)
  | edge (source target : JVal)

/-- The container `#prov-graph`: its text and the graph drawn in it. -/
structure ProvPanel where
  text : JStr
  graph : Option (List CyElement)

/-- A child of `#social-signals`: markup assigned to `innerHTML`, or an
appended `div`. -/
inductive PanelNode where
  | markup (html : JStr)
  | div (className innerHTML : JStr)
  deriving DecidableEq

/-- A construction of the gauge chart: the canvas it is drawn on and its
dataset `[confidence, 100 - confidence]`, `none` standing for `NaN`. -/
structure ChartCall where
  canvasId : JStr
  filled : JVal
  rest : Option Int

/-- A file offered for download. -/
structure Download where
  name : JStr
  content : JStr
  mime : JStr
  deriving DecidableEq

/-- The page: the elements the script reads and writes, then the logs of
its calls to the outside. Scroll positions are not part of the model. -/
structure Page where
  /-- Children of `#chat-window`, in document order. -/
  chatWindow : List ChatNode
  /-- Value of `#chat-field`. -/
  chatField : JStr
  /-- Value of `#claim-text`. -/
  claimText : JStr
  /-- Value of `#claim-url`. -/
  claimUrl : JStr
  /-- First file of `#claim-image`. -/
  claimImage : Option File
  /-- Children of `#fallacies`. -/
  fallacies : List Chip
  /-- Children of `#biases`. -/
  biases : List Chip
  /-- Text of `#debiased`. -/
  debiased : JStr
  /-- Text of `#explanation`. -/
  explanation : JStr
  /-- Text of `#generative-explainer`. -/
  generativeExplainer : JStr
  /-- The container `#prov-graph`. -/
  provGraph : ProvPanel
  /-- Children of `#social-signals`; `none` when the page has no such element. -/
  socialSignals : Option (List PanelNode)
  /-- Text of `#ledger-hash`. -/
  ledgerHash : JStr
  /-- Width assigned to `.progress.agree`. -/
  progressAgree : JStr
  /-- Width assigned to `.progress.disagree`. -/
  progressDisagree : JStr
  /-- Text of `.vote-summary`. -/
  voteSummary : JStr
  /-- Calls of `fetch`. -/
  requests : List Request
  /-- Constructions of `Chart`. -/
  charts : List ChartCall
  /-- Calls of `cytoscape`, each with its elements. -/
  graphs : List (List CyElement)
  /-- Files offered for download. -/
  downloads : List Download
  /-- Calls of `alert`. -/
  alerts : List JStr
  /-- Calls of `console.error`. -/
  consoleErrors : List JsError

/-- The page when a call ends, and the exception that ended it, if any. -/
structure Outcome where
  page : Page
  thrown : Option JsError

/-- A call that ends normally. -/
def Outcome.done (p : Page) : Outcome := ⟨p, none⟩

/-- A call that ends by an exception. -/
def Outcome.throw (p : Page) (e : JsError) : Outcome := ⟨p, some e⟩

/-- Sequencing of statements: the next statement runs when the previous one
ended normally. -/
def Outcome.andThen (o : Outcome) (next : Page → Outcome) : Outcome :=
  match o.thrown with
  | none => next o.page
  | some _ => o

/-- The function `addMessage`. -/
def addMessage (text : JStr) (type : String) (p : Page) : Page :=
  { p with chatWindow := p.chatWindow ++ [.message (utf16 "message " ++ utf16 type) text] }

/-- Evaluation of an expression that may throw, then the rest of the body. -/
def Outcome.eval {α : Type} (e : Except JsError α) (p : Page) (next : α → Outcome) : Outcome :=
  match e with
  | .error err => .throw p err
  | .ok v => next v

/-- The method `Array.prototype.map` with a callback that may throw. -/
def mapExcept {α β : Type} (f : α → Except JsError β) : List α → Except JsError (List β)
  | [] => .ok []
  | x :: xs =>
    match f x with
    | .error e => .error e
    | .ok y =>
      match mapExcept f xs with
      | .error e => .error e
      | .ok ys => .ok (y :: ys)

/-- The call `v.map(f)`: a `TypeError` unless `v` is an array. -/
def mapArray {β : Type} (f : JVal → Except JsError β) (v : JVal) : Except JsError (List β) :=
  match v with
  | .arr xs => mapExcept f xs
  | _ => .error .typeError

/-! ## Rendering the verdict -/

/-- The callback of `relevant_sources.map` in `showVerdict`. -/
def sourceLink (s : JVal) : Except JsError JStr := do
  let len ← prop s "length"
  let label ←
    if gt50 len then
      match s with
      | .str u => pure (substring0 u 50 ++ utf16 "...")
      | _ => throw .typeError
    else pure (toStr s)
  pure (utf16 "<a href=" ++ dq ++ toStr s ++ dq ++ utf16 " target=" ++ dq ++ utf16 "_blank"
    ++ dq ++ utf16 ">" ++ label ++ utf16 "</a>")

/-- The expression of the sources block of `showVerdict`:
`(data.relevant_sources || []).map(...).join("") || "No sources available"`. -/
def sourcesBlock (data : JVal) : Except JsError JStr := do
  let sources ← prop data "relevant_sources"
  let links ← mapArray sourceLink (orElse sources (.arr []))
  let joined := links.flatten
  pure (if joined.isEmpty then utf16 "No sources available" else joined)

/-- The markup of the deepfake block for a value of `data.deepfake`. -/
def deepfakeMarkup (deepfake : JVal) : JStr :=
  if truthy deepfake then
    utf16 "<div class=" ++ dq ++ utf16 "deepfake" ++ dq
      ++ utf16 "><strong>Deepfake Analysis:</strong> " ++ jsonStringify deepfake 0
      ++ utf16 "</div>"
  else []

/-- The expression of the deepfake block of `showVerdict`. -/
def deepfakeBlock (data : JVal) : Except JsError JStr := do
  let deepfake ← prop data "deepfake"
  pure (deepfakeMarkup deepfake)

/-- The identifier `gauge-${Date.now()}`. -/
def gaugeIdOf (now : Nat) : JStr := utf16 "gauge-" ++ utf16 (toString now)

/-- The template literal assigned to `card.innerHTML`, with the texts that
fill its holes. -/
def cardMarkup (gaugeId verdict confidence sources deepfake ledger : JStr) : JStr :=
  nl ++ utf16 "      <div id=" ++ dq ++ utf16 "gauge-wrap" ++ dq ++ utf16 " style=" ++ dq
    ++ utf16 "text-align:center; margin-bottom:0.3rem;" ++ dq ++ utf16 ">" ++ nl
  ++ utf16 "        <canvas id=" ++ dq ++ gaugeId ++ dq ++ utf16 " width=" ++ dq
    ++ utf16 "100" ++ dq ++ utf16 " height=" ++ dq ++ utf16 "60" ++ dq
    ++ utf16 "></canvas>" ++ nl
  ++ utf16 "      </div>" ++ nl
  ++ utf16 "      <h3>" ++ verdict ++ utf16 " (" ++ confidence ++ utf16 "%)</h3>" ++ nl
  ++ utf16 "      <div class=" ++ dq ++ utf16 "sources" ++ dq ++ utf16 ">" ++ nl
  ++ utf16 "        <strong>Sources:</strong>" ++ nl
  ++ utf16 "        " ++ sources ++ nl
  ++ utf16 "      </div>" ++ nl
  ++ utf16 "      " ++ deepfake ++ nl
  ++ utf16 "      <div class=" ++ dq ++ utf16 "ledger" ++ dq ++ utf16 ">" ++ nl
  ++ utf16 "        <strong>Ledger:</strong> " ++ ledger ++ nl
  ++ utf16 "      </div>" ++ nl
  ++ utf16 "      <button id=" ++ dq ++ utf16 "download-json" ++ dq
    ++ utf16 ">⬇ Download Full Report</button>" ++ nl
  ++ utf16 "    "

/-- The class name and the `innerHTML` of the card built by `showVerdict`. -/
def verdictCard (now : Nat) (data : JVal) : Except JsError (JStr × JStr) := do
  let verdict ← prop data "verdict"
  let lower ←
    match verdict with
    | .str v => pure (toLowerCase v)
    | _ => throw .typeError
  let confidence ← prop data "confidence"
  let sources ← sourcesBlock data
  let deepfake ← deepfakeBlock data
  let ledger ← prop data "ledger_status"
  pure (utf16 "verdict-card " ++ lower,
    cardMarkup (gaugeIdOf now) (toStr verdict) (toStr confidence) sources deepfake
      (if truthy ledger then utf16 "Recorded" else utf16 "Failed"))

/-- The function `showVerdict`; `now` is the value of `Date.now()`. -/
def showVerdict (now : Nat) (data : JVal) (p : Page) : Outcome :=
  match verdictCard now data with
  | .error e => .throw p e
  | .ok (className, html) =>
    .done { p with
      chatWindow := p.chatWindow ++ [.card className html none]
      charts := p.charts ++
        [⟨gaugeIdOf now, getOwn data "confidence",
          (toNumber (getOwn data "confidence")).map fun c => 100 - c⟩] }

/-! ## Rendering the reasoning -/

/-- The five assignments that open `showReasoning`. -/
def clearReasoning (p : Page) : Page :=
  { p with fallacies := [], biases := [], debiased := [], explanation := [],
           generativeExplainer := [] }

/-- The chips made by a `forEach` of `showReasoning`. -/
def chipsOf (className : String) (entries : List JVal) : List Chip :=
  entries.map fun f => ⟨utf16 className, innerTextOf f⟩

/-- The statement `(reasoning.fallacy || []).forEach(...)`. -/
def fallacyChips (reasoning : JVal) (p : Page) : Outcome :=
  .eval (prop reasoning "fallacy") p fun fallacy =>
    match orElse fallacy (.arr []) with
    | .arr fs => .done { p with fallacies := p.fallacies ++ chipsOf "chip fallacy" fs }
    | _ => .throw p .typeError

/-- The statement `(reasoning.bias || []).forEach(...)`. -/
def biasChips (reasoning : JVal) (p : Page) : Outcome :=
  .eval (prop reasoning "bias") p fun bias =>
    match orElse bias (.arr []) with
    | .arr bs => .done { p with biases := p.biases ++ chipsOf "chip bias" bs }
    | _ => .throw p .typeError

/-- The three conditional text lines that close `showReasoning`. -/
def reasoningTexts (reasoning : JVal) (p : Page) : Outcome :=
  .eval (prop reasoning "debiased_text") p fun debiased =>
  .eval (prop reasoning "explanation") p fun explanation =>
  .eval (prop reasoning "generative_explainer") p fun explainer =>
    let p := if truthy debiased then
        { p with debiased := utf16 "Debiased: " ++ toStr debiased } else p
    let p := if truthy explanation then
        { p with explanation := utf16 "Explanation: " ++ toStr explanation } else p
    let p := if truthy explainer then
        { p with generativeExplainer := utf16 "Generative Explainer: " ++ toStr explainer }
      else p
    .done p

/-- The function `showReasoning`. -/
def showReasoning (reasoning : JVal) (p : Page) : Outcome :=
  (fallacyChips reasoning (clearReasoning p)).andThen fun p =>
  (biasChips reasoning p).andThen fun p =>
  reasoningTexts reasoning p

/-! ## Rendering the provenance graph -/

/-- The callback of `nodes.map` in `showProvenance`. -/
def nodeElement (n : JVal) : Except JsError CyElement := do
  let id ← prop n "id"
  let label ← prop n "id"
  let role ← prop n "role"
  pure (.node id label role)

/-- The callback of `edges.map` in `showProvenance`. -/
def edgeElement (e : JVal) : Except JsError CyElement := do
  let source ← index e 0
  let target ← index e 1
  pure (.edge source target)

/-- The array `elements` of `showProvenance`. -/
def provElements (graph : JVal) : Except JsError (List CyElement) := do
  let nodes ← prop graph "nodes"
  let nodeElements ← mapArray nodeElement nodes
  let edges ← prop graph "edges"
  let edgeElements ← mapArray edgeElement edges
  pure (nodeElements ++ edgeElements)

/-- The function `showProvenance`. -/
def showProvenance (provenance : JVal) (p : Page) : Outcome :=
  let p := { p with provGraph := ⟨[], none⟩ }
  .eval (prop provenance "provenance_graph") p fun graph =>
    if !truthy graph || !truthy (getOwn graph "nodes") then
      .done { p with provGraph := ⟨utf16 "No provenance data.", none⟩ }
    else
      .eval (provElements graph) p fun elements =>
        .done { p with provGraph := ⟨[], some elements⟩, graphs := p.graphs ++ [elements] }

/-! ## Rendering the social signals -/

/-- The `div` built by the callback of `signals.forEach`. -/
def signalItem (s : JVal) : Except JsError PanelNode := do
  let platform ← prop s "platform"
  let user ← prop s "user"
  let url ← prop s "url"
  let text ← prop s "text"
  let timestamp ← prop s "timestamp"
  pure (.div (utf16 "signal-item")
    (nl ++ utf16 "        <strong>[" ++ toStr platform ++ utf16 "]</strong> " ++ toStr user
      ++ utf16 ":" ++ nl
    ++ utf16 "        <a href=" ++ dq ++ toStr url ++ dq ++ utf16 " target=" ++ dq
      ++ utf16 "_blank" ++ dq ++ utf16 ">" ++ toStr text ++ utf16 "</a>" ++ nl
    ++ utf16 "        <span class=" ++ dq ++ utf16 "timestamp" ++ dq ++ utf16 ">("
      ++ toStr timestamp ++ utf16 ")</span>" ++ nl
    ++ utf16 "      "))

/-- The loop `signals.forEach(...)`: the children of the container when the
loop ends, and the exception that ended it, if any. -/
def forEachSignal : List JVal → List PanelNode → List PanelNode × Option JsError
  | [], children => (children, none)
  | s :: rest, children =>
    match signalItem s with
    | .error e => (children, some e)
    | .ok item => forEachSignal rest (children ++ [item])

/-- The comparison `v === 0`. -/
def strictEqZero : JVal → Bool
  | .num n => n == 0
  | _ => false

/-- The function `showSocialSignals`. -/
def showSocialSignals (signals : JVal) (p : Page) : Outcome :=
  match p.socialSignals with
  | none => .done p
  | some _ =>
    if !truthy signals || strictEqZero (getOwn signals "length") then
      .done { p with
        socialSignals := some [.markup (utf16 "<p>No social signals found.</p>")] }
    else
      match signals with
      | .arr xs =>
        let r := forEachSignal xs []
        ⟨{ p with socialSignals := some r.1 }, r.2⟩
      | _ => .throw { p with socialSignals := some [] } .typeError

/-! ## Report export -/

/-- Binding of the first element with the identifier `download-json`, in
document order: the button of the first verdict card of the chat window (the
cards are the only elements of the page that carry this identifier). -/
def bindFirstCard (data : JVal) : List ChatNode → List ChatNode
  | [] => []
  | .card className html _ :: rest => .card className html (some data) :: rest
  | .message className text :: rest => .message className text :: bindFirstCard data rest

/-- The function `enableDownload`. -/
def enableDownload (data : JVal) (p : Page) : Page :=
  { p with chatWindow := bindFirstCard data p.chatWindow }

/-- A click on the `download-json` button of the child `i` of the chat
window: the handler set by `enableDownload` runs, when there is one. -/
def clickDownload (i : Nat) (p : Page) : Page :=
  match p.chatWindow.get? i with
  | some (.card _ _ (some data)) =>
    { p with downloads := p.downloads ++
        [⟨utf16 "truthlens_report.json", jsonStringify data 2, utf16 "application/json"⟩] }
  | _ => p

/-! ## The send handler -/

/-- The value of `userMessage`:
`chatField.value.trim() || claimText || claimUrl || (claimImage && claimImage.name)`. -/
def userMessage (p : Page) : JVal :=
  orElse (.str (trim p.chatField))
    (orElse (.str (trim p.claimText))
      (orElse (.str (trim p.claimUrl))
        (match p.claimImage with
          | none => .undefined
          | some image => .str image.name)))

/-- The `FormData` built by the send handler. -/
def buildFormData (p : Page) : FormData :=
  let formData : FormData := []
  let formData :=
    if truthy (.str (trim p.chatField)) then
      formData.append "claim_text" (.text (trim p.chatField))
    else if truthy (.str (trim p.claimText)) then
      formData.append "claim_text" (.text (trim p.claimText))
    else formData
  let formData :=
    if truthy (.str (trim p.claimUrl)) then
      formData.append "claim_url" (.text (trim p.claimUrl))
    else formData
  match p.claimImage with
  | some image => formData.append "image" (.file image)
  | none => formData

/-- The send handler up to the call of `fetch`: `none` when the handler
returns at `if (!userMessage) return`, otherwise the page at the moment
`fetch` is called and the payload handed to it. -/
def sendStart (p : Page) : Option (Page × FormData) :=
  if !truthy (userMessage p) then none
  else some (addMessage (innerTextOf (userMessage p)) "user" p, buildFormData p)

/-- The fixed text of the message shown when a submission fails. -/
def backendErrorText : JStr := utf16 "⚠️ Backend error. Try again later."

/-- The statements of the `try` block that follow `showVerdict(data)`. -/
def afterVerdict (data : JVal) (p : Page) : Outcome :=
  (Outcome.eval (prop data "reasoning") p fun reasoning =>
    showReasoning (orElse reasoning (.obj [])) p).andThen fun p =>
  (Outcome.eval (prop data "provenance") p fun provenance =>
    showProvenance (orElse provenance (.obj [])) p).andThen fun p =>
  (Outcome.eval (prop data "social_signals") p fun signals =>
    showSocialSignals (orElse signals (.arr [])) p).andThen fun p =>
  (Outcome.eval (prop data "ledger_status") p fun status =>
    if truthy status then
      Outcome.eval (prop status "ledger_hash") p fun hash =>
        .done { p with ledgerHash := innerTextOf (orElse hash (.str (utf16 "Recorded"))) }
    else .done p).andThen fun p =>
  .done (enableDownload data p)

/-- The `try` block of the send handler: the request, the reply of the
network, and the dispatch of the parsed body to the renderers. -/
def sendTry (formData : FormData) (reply : NetReply) (now : Nat) (p : Page) : Outcome :=
  let p := { p with requests := p.requests ++
    [⟨utf16 "POST", utf16 "http://127.0.0.1:8000/api/factcheck", .form formData⟩] }
  match reply with
  | .rejected => .throw p .fetchFailed
  | .response _ none => .throw p .syntaxError
  | .response _ (some data) => (showVerdict now data p).andThen (afterVerdict data)

/-- The four assignments that close the send handler. -/
def resetFields (p : Page) : Page :=
  { p with chatField := [], claimText := [], claimUrl := [], claimImage := none }

/-- The send handler from the call of `fetch` on: the `try` block, the
`catch` clause and the reset of the fields. -/
def sendFinish (formData : FormData) (reply : NetReply) (now : Nat) (p : Page) : Outcome :=
  let o := sendTry formData reply now p
  match o.thrown with
  | none => .done (resetFields o.page)
  | some err =>
    .done (resetFields (addMessage backendErrorText "system"
      { o.page with consoleErrors := o.page.consoleErrors ++ [err] }))

/-- The click handler of `#send-btn`, with the reply of the network to its
request and the clock value read by `showVerdict`. -/
def sendClick (reply : NetReply) (now : Nat) (p : Page) : Outcome :=
  match sendStart p with
  | none => .done p
  | some (p1, formData) => sendFinish formData reply now p1

/-! ## The vote handler -/

/-- The click handler of a `.vote-btn`; `upvote` tells whether the button
carries the class `upvote`. -/
def voteClick (upvote : Bool) (reply : NetReply) (p : Page) : Outcome :=
  let vote := if upvote then "agree" else "disagree"
  let body : JVal := .obj [(utf16 "claim", .str (utf16 "latest")), (utf16 "vote", .str (utf16 vote))]
  let p := { p with requests := p.requests ++
    [⟨utf16 "POST", utf16 "http://127.0.0.1:8000/api/community/vote",
      .json (jsonStringify body 0)⟩] }
  match reply with
  | .rejected => .throw p .fetchFailed
  | .response _ none => .throw p .syntaxError
  | .response _ (some data) =>
    .eval (prop data "agree") p fun agree =>
    .eval (prop data "disagree") p fun disagree =>
      .done { p with
        progressAgree := toStr agree ++ utf16 "%"
        progressDisagree := toStr disagree ++ utf16 "%"
        voteSummary := toStr agree ++ utf16 "% agree, " ++ toStr disagree ++ utf16 "% disagree" }

/-! ## The ledger-proof handler -/

/-- The `try` block of the click handler of `.ledger-btn`. -/
def ledgerTry (reply : NetReply) (p : Page) : Outcome :=
  let p := { p with requests := p.requests ++
    [⟨utf16 "GET", utf16 "http://127.0.0.1:8000/api/ledger/proof", .empty⟩] }
  match reply with
  | .rejected => .throw p .fetchFailed
  | .response false _ => .throw p .ledgerApi
  | .response true none => .throw p .syntaxError
  | .response true (some data) =>
    .eval (prop data "ledger_hash") p fun hash =>
    .eval (prop data "signed_at") p fun signedAt =>
      let ledgerContent :=
        nl ++ utf16 "🔗 TruthLens Ledger Proof" ++ nl
        ++ utf16 "---------------------------" ++ nl
        ++ utf16 "Ledger Hash : " ++ toStr (orElse hash (.str (utf16 "N/A"))) ++ nl
        ++ utf16 "Signed At   : " ++ toStr (orElse signedAt (.str (utf16 "N/A"))) ++ nl
      .done { p with downloads := p.downloads ++
        [⟨utf16 "ledger_proof.txt", ledgerContent, utf16 "text/plain"⟩] }

/-- The click handler of `.ledger-btn`: the `try` block and the `catch` clause. -/
def ledgerClick (reply : NetReply) (p : Page) : Outcome :=
  let o := ledgerTry reply p
  match o.thrown with
  | none => o
  | some err =>
    .done { o.page with
      consoleErrors := o.page.consoleErrors ++ [err]
      alerts := o.page.alerts ++ [utf16 "⚠️ Could not fetch ledger proof. Please try again."] }

/-! ## The reading of the sources markup

The card is filled by an assignment to `innerHTML`, so what the sources block
shows is what the HTML parser reads in its markup. The definitions below follow
the tokenizer of the HTML Standard (tag open, tag name, the attribute name and
attribute value states, data, end tag open) on a run of `a` elements, which is
the shape of the markup `sourcesBlock` writes; character references, NUL and
carriage returns are not read by this model, which answers `none` for them. -/

/-- A link as the page shows it: the value of its `href` attribute and its
text. -/
structure Link where
  target : JStr
  label : JStr
  deriving DecidableEq

/-- What the sources block shows: a plain text, or a run of links. -/
inductive SourcesView where
  | text (t : JStr)
  | links (ls : List Link)
  deriving DecidableEq

/-- The states of the HTML tokenizer met while a run of `a` elements is read:
outside an element, the start tag and its attributes, the text of the element,
the end tag. -/
inductive ReadState where
  | between
  | tagOpen
  | tagName
  | beforeName
  | attrName
  | afterName
  | beforeValue
  | valueDq
  | valueSq
  | valueUnq
  | afterValue
  | selfClosing
  | text
  | endOpen
  | endSlash
  | endName
  deriving DecidableEq

/-- White space of the HTML tokenizer (carriage returns are gone once the
input stream is normalised). -/
def isHtmlSpace (c : Nat) : Bool := c == 0x09 || c == 0x0A || c == 0x0C || c == 0x20

/-- ASCII lower case of one code unit, as the tokenizer applies it to names. -/
def lowerUnit (c : Nat) : Nat := if 0x41 ≤ c ∧ c ≤ 0x5A then c + 0x20 else c

/-- The attributes of a tag once the attribute being read is closed: an
attribute whose name the tag already has is dropped. -/
def closeAttr (attrs : List (JStr × JStr)) : Option (JStr × JStr) → List (JStr × JStr)
  | none => attrs
  | some (n, v) => if attrs.any (fun a => a.1 == n) then attrs else attrs ++ [(n, v)]

/-- A code unit appended to the name of the attribute being read. -/
def pushName (c : Nat) : Option (JStr × JStr) → Option (JStr × JStr)
  | none => some ([c], [])
  | some (n, v) => some (n ++ [c], v)

/-- A code unit appended to the value of the attribute being read. -/
def pushValue (c : Nat) : Option (JStr × JStr) → Option (JStr × JStr)
  | none => some ([], [c])
  | some (n, v) => some (n, v ++ [c])

/-- The value of the attribute `href`, empty when the tag has none. -/
def hrefOf : List (JStr × JStr) → JStr
  | [] => []
  | (n, v) :: rest => if n = utf16 "href" then v else hrefOf rest

/-- The HTML tokenizer on a run of `a` elements, one code unit at a time:
`links` are the elements closed so far, `attrs` and `cur` the attributes of
the start tag being read, `label` the text of the open element. The result is
`none` when the markup leaves the run of `a` elements (another tag, text
between the elements, an end tag with attributes, the end of the input inside
an element). -/
def readLinks : ReadState → List Link → List (JStr × JStr) → Option (JStr × JStr) → JStr →
    JStr → Option (List Link)
  | .between, links, _, _, _, [] => some links
  | _, _, _, _, _, [] => none
  | .between, links, attrs, cur, label, c :: rest =>
    if c = 0x3C then readLinks .tagOpen links attrs cur label rest else none
  | .tagOpen, links, attrs, cur, label, c :: rest =>
    if lowerUnit c = 0x61 then readLinks .tagName links attrs cur label rest else none
  | .tagName, links, attrs, cur, label, c :: rest =>
    if isHtmlSpace c then readLinks .beforeName links attrs cur label rest
    else if c = 0x2F then readLinks .selfClosing links attrs cur label rest
    else if c = 0x3E then readLinks .text links (closeAttr attrs cur) none [] rest
    else none
  | .beforeName, links, attrs, cur, label, c :: rest =>
    if isHtmlSpace c then readLinks .beforeName links attrs cur label rest
    else if c = 0x2F then readLinks .selfClosing links attrs cur label rest
    else if c = 0x3E then readLinks .text links (closeAttr attrs cur) none [] rest
    else readLinks .attrName links (closeAttr attrs cur) (some ([lowerUnit c], [])) label rest
  | .attrName, links, attrs, cur, label, c :: rest =>
    if isHtmlSpace c then readLinks .afterName links attrs cur label rest
    else if c = 0x2F then readLinks .selfClosing links attrs cur label rest
    else if c = 0x3E then readLinks .text links (closeAttr attrs cur) none [] rest
    else if c = 0x3D then readLinks .beforeValue links attrs cur label rest
    else readLinks .attrName links attrs (pushName (lowerUnit c) cur) label rest
  | .afterName, links, attrs, cur, label, c :: rest =>
    if isHtmlSpace c then readLinks .afterName links attrs cur label rest
    else if c = 0x2F then readLinks .selfClosing links attrs cur label rest
    else if c = 0x3D then readLinks .beforeValue links attrs cur label rest
    else if c = 0x3E then readLinks .text links (closeAttr attrs cur) none [] rest
    else readLinks .attrName links (closeAttr attrs cur) (some ([lowerUnit c], [])) label rest
  | .beforeValue, links, attrs, cur, label, c :: rest =>
    if isHtmlSpace c then readLinks .beforeValue links attrs cur label rest
    else if c = 0x22 then readLinks .valueDq links attrs cur label rest
    else if c = 0x27 then readLinks .valueSq links attrs cur label rest
    else if c = 0x3E then readLinks .text links (closeAttr attrs cur) none [] rest
    else readLinks .valueUnq links attrs (pushValue c cur) label rest
  | .valueDq, links, attrs, cur, label, c :: rest =>
    if c = 0x22 then readLinks .afterValue links attrs cur label rest
    else readLinks .valueDq links attrs (pushValue c cur) label rest
  | .valueSq, links, attrs, cur, label, c :: rest =>
    if c = 0x27 then readLinks .afterValue links attrs cur label rest
    else readLinks .valueSq links attrs (pushValue c cur) label rest
  | .valueUnq, links, attrs, cur, label, c :: rest =>
    if isHtmlSpace c then readLinks .beforeName links attrs cur label rest
    else if c = 0x3E then readLinks .text links (closeAttr attrs cur) none [] rest
    else readLinks .valueUnq links attrs (pushValue c cur) label rest
  | .afterValue, links, attrs, cur, label, c :: rest =>
    if isHtmlSpace c then readLinks .beforeName links attrs cur label rest
    else if c = 0x2F then readLinks .selfClosing links attrs cur label rest
    else if c = 0x3E then readLinks .text links (closeAttr attrs cur) none [] rest
    else readLinks .attrName links (closeAttr attrs cur) (some ([lowerUnit c], [])) label rest
  | .selfClosing, links, attrs, cur, label, c :: rest =>
    if c = 0x3E then readLinks .text links (closeAttr attrs cur) none [] rest
    else if isHtmlSpace c then readLinks .beforeName links attrs cur label rest
    else if c = 0x2F then readLinks .selfClosing links attrs cur label rest
    else readLinks .attrName links (closeAttr attrs cur) (some ([lowerUnit c], [])) label rest
  | .text, links, attrs, cur, label, c :: rest =>
    if c = 0x3C then readLinks .endOpen links attrs cur label rest
    else readLinks .text links attrs cur (label ++ [c]) rest
  | .endOpen, links, attrs, cur, label, c :: rest =>
    if c = 0x2F then readLinks .endSlash links attrs cur label rest else none
  | .endSlash, links, attrs, cur, label, c :: rest =>
    if lowerUnit c = 0x61 then readLinks .endName links attrs cur label rest else none
  | .endName, links, attrs, _, label, c :: rest =>
    if c = 0x3E then readLinks .between (links ++ [⟨hrefOf attrs, label⟩]) [] none [] rest
    else none

/-- A code unit that the reading below leaves aside: `&` opens a character
reference, a carriage return is rewritten by the input stream, NUL is replaced
or dropped. -/
def isRewritten (c : Nat) : Bool := c == 0x26 || c == 0x0D || c == 0x00

/-- What the HTML parser makes of the markup of the sources block: the text
itself when it holds no `<`, the run of links it spells otherwise; `none`
when the markup holds a rewritten code unit or leaves the run of links. -/
def readSources (markup : JStr) : Option SourcesView :=
  if markup.any isRewritten then none
  else if markup.any (fun c => c == 0x3C) then
    (readLinks .between [] [] none [] markup).map .links
  else some (.text markup)

/-! ## Reference definitions, in the words of the specification -/

/-- The display label of a claim input: the first non-empty value in the
order chat field, claim text, claim URL (each trimmed), image file name. -/
def displayLabel (p : Page) : JStr :=
  (([trim p.chatField, trim p.claimText, trim p.claimUrl]
      ++ (p.claimImage.map fun image => image.name).toList).find? fun s => !s.isEmpty).getD []

/-- The chat-log entry of type `user` or `system` with a given text. -/
def chatEntry (type : String) (text : JStr) : ChatNode :=
  .message (utf16 ("message " ++ type)) text

/-- The label shown for a source: its first 50 characters followed by `...`
when it is longer than 50 characters, the source itself otherwise. -/
def sourceLabel (s : JStr) : JStr :=
  if 50 < s.length then s.take 50 ++ utf16 "..." else s

/-- The sources block of the specification, as the page shows it: the literal
when the sequence is absent or empty, otherwise one link per source, in input
order, whose target is the source and whose label is `sourceLabel`. -/
def sourcesReference : Option (List JStr) → SourcesView
  | none => .text (utf16 "No sources available")
  | some [] => .text (utf16 "No sources available")
  | some (s :: rest) => .links ((s :: rest).map fun u => ⟨u, sourceLabel u⟩)

/-- The value of `relevant_sources` for a sequence of source strings; an
absent sequence is a missing property, or `null` when `isNull` is set. -/
def sourcesField (isNull : Bool) : Option (List JStr) → JVal
  | none => if isNull then .null else .undefined
  | some sources => .arr (sources.map .str)

/-- A code unit that markup gives a meaning of its own: `&`, the double
quote, `<`, the carriage return and NUL. -/
def isMarkupUnit (c : Nat) : Bool :=
  c == 0x26 || c == 0x22 || c == 0x3C || c == 0x0D || c == 0x00

/-- The markup that `sourceLink` writes for a source string: the target and
the label are put between the fixed pieces as they are, unescaped. -/
def linkMarkup (target label : JStr) : JStr :=
  utf16 "<a href=" ++ dq ++ target ++ dq ++ utf16 " target=" ++ dq ++ utf16 "_blank" ++ dq
    ++ utf16 ">" ++ label ++ utf16 "</a>"

/-- The markup that `sourcesBlock` writes for a sequence of source strings. -/
def sourcesMarkup : Option (List JStr) → JStr
  | none => utf16 "No sources available"
  | some [] => utf16 "No sources available"
  | some (s :: rest) => ((s :: rest).map fun u => linkMarkup u (sourceLabel u)).flatten

/-- The graph element of a node: its id, the id again as label, its role. -/
def nodeOf (n : JVal) : CyElement :=
  .node (getOwn n "id") (getOwn n "id") (getOwn n "role")

/-- The directed graph element of an edge pair: from its first component to
its second. -/
def edgeOf (e : JVal) : CyElement :=
  .edge (getIndex e 0) (getIndex e 1)

/-- A value that is neither `undefined` nor `null`. -/
def isPresent : JVal → Bool
  | .undefined => false
  | .null => false
  | _ => true

/-- The regions written by `showReasoning`: the fallacy chips, the bias
chips and the three text lines. -/
structure ReasoningRegions where
  fallacies : List Chip
  biases : List Chip
  debiased : JStr
  explanation : JStr
  generativeExplainer : JStr
  deriving DecidableEq

/-- The reasoning regions of a page. -/
def reasoningRegions (p : Page) : ReasoningRegions :=
  ⟨p.fallacies, p.biases, p.debiased, p.explanation, p.generativeExplainer⟩

/-- One chip per tag, in order, none merged. -/
def tagChips (className : String) (tags : List JStr) : List Chip :=
  tags.map fun t => ⟨utf16 className, t⟩

/-- A text region: its fixed-label line when the field is present and
non-empty, nothing otherwise. -/
def textLine (label : String) : Option JStr → JStr
  | none => []
  | some s => if s = [] then [] else utf16 label ++ s

/-- The value of a field holding a sequence of tags, absent when `none`. -/
def tagsField : Option (List JStr) → JVal
  | none => .undefined
  | some tags => .arr (tags.map .str)

/-- The value of a field holding a text, absent when `none`. -/
def textField : Option JStr → JVal
  | none => .undefined
  | some s => .str s

/-! ## Sample inputs -/

/-- A page with empty fields, an empty chat log and empty panels. -/
def blankPage : Page where
  chatWindow := []
  chatField := []
  claimText := []
  claimUrl := []
  claimImage := none
  fallacies := []
  biases := []
  debiased := []
  explanation := []
  generativeExplainer := []
  provGraph := ⟨[], none⟩
  socialSignals := some []
  ledgerHash := []
  progressAgree := []
  progressDisagree := []
  voteSummary := []
  requests := []
  charts := []
  graphs := []
  downloads := []
  alerts := []
  consoleErrors := []

/-- An object literal. -/
def mkObj (kvs : List (String × JVal)) : JVal :=
  .obj (kvs.map fun kv => (utf16 kv.1, kv.2))

/-- A string literal. -/
def mkStr (s : String) : JVal := .str (utf16 s)

/-- A page whose claim-text field holds a claim between blanks and whose
claim-URL field holds a link. -/
def moonPage : Page :=
  { blankPage with
    claimText := utf16 " The moon landing was faked "
    claimUrl := utf16 "https://example.org/moon" }

/-- A page whose fields hold blanks only. -/
def blanksOnlyPage : Page :=
  { blankPage with chatField := utf16 "  ", claimText := [0x09], claimUrl := [0xA0, 0x0A] }

/-- A page that still shows the panels of an earlier submission and whose
chat field holds a new claim. -/
def stalePage : Page :=
  { blankPage with
    chatField := utf16 "Is this true?"
    fallacies := [⟨utf16 "chip fallacy", utf16 "strawman"⟩]
    provGraph := ⟨utf16 "No provenance data.", none⟩ }

/-- A response body with a verdict, one fallacy tag and a provenance graph
that has nodes and no `edges` collection. -/
def edgelessBody : JVal :=
  mkObj [("verdict", mkStr "True"), ("confidence", .num 50),
    ("reasoning", mkObj [("fallacy", .arr [mkStr "ad hominem"])]),
    ("provenance", mkObj [("provenance_graph",
      mkObj [("nodes", .arr [mkObj [("id", mkStr "a"), ("role", mkStr "origin")]])])])]

/-- A response body with a verdict and a provenance graph whose `nodes`
collection is empty and whose `edges` collection is missing. -/
def noEdgesBody : JVal :=
  mkObj [("verdict", mkStr "True"), ("confidence", .num 50),
    ("provenance", mkObj [("provenance_graph", mkObj [("nodes", .arr [])])])]

/-- The same body with its `nodes` collection missing instead. -/
def noNodesBody : JVal :=
  mkObj [("verdict", mkStr "True"), ("confidence", .num 50),
    ("provenance", mkObj [("provenance_graph", mkObj [("edges", .arr [])])])]

/-- A source of 60 characters. -/
def longSource : JStr := utf16 "https://example.org/" ++ List.replicate 40 0x61

/-- A result with a short and a long source. -/
def twoSourcesBody : JVal :=
  mkObj [("verdict", mkStr "False"), ("confidence", .num 92),
    ("relevant_sources", .arr [mkStr "https://nasa.gov/apollo", .str longSource])]

/-- A provenance object with two nodes and one edge. -/
def smallProvenance : JVal :=
  mkObj [("provenance_graph", mkObj [
    ("nodes", .arr [mkObj [("id", mkStr "a"), ("role", mkStr "origin")],
                    mkObj [("id", mkStr "b"), ("role", mkStr "amplifier")]]),
    ("edges", .arr [.arr [mkStr "a", mkStr "b"]])])]

/-- A reasoning payload with two fallacy tags (one repeated), no bias
field, a debiased text and an empty explanation. -/
def sampleReasoning : JVal :=
  mkObj [("fallacy", .arr [mkStr "strawman", mkStr "strawman"]),
    ("debiased_text", mkStr "Calmer wording"), ("explanation", mkStr "")]

/-- A reasoning payload with one bias tag and nothing else. -/
def biasOnlyReasoning : JVal :=
  mkObj [("bias", .arr [mkStr "confirmation bias"])]

/-- The body returned for a first claim. -/
def firstBody : JVal :=
  mkObj [("verdict", mkStr "False"), ("confidence", .num 92),
    ("relevant_sources", .arr [mkStr "https://nasa.gov/apollo"])]

/-- The body returned for a second claim. -/
def secondBody : JVal :=
  mkObj [("verdict", mkStr "True"), ("confidence", .num 71)]

/-- The page after one successful submission. -/
def afterOne : Page :=
  (sendClick (.response true (some firstBody)) 1700 moonPage).page

/-- The page after a second successful submission, typed in the chat field. -/
def afterTwo : Page :=
  (sendClick (.response true (some secondBody)) 1800
    { afterOne with chatField := utf16 "The earth is round" }).page

/-- A source with a quoted word in its query. -/
def quotedSource : JStr := utf16 "https://example.org/?q=" ++ dq ++ utf16 "moon" ++ dq

/-- A result whose only source is `quotedSource`. -/
def quotedBody : JVal :=
  mkObj [("verdict", mkStr "False"), ("confidence", .num 92),
    ("relevant_sources", .arr [.str quotedSource])]

/-! ## Properties -/

/-! ### The request log -/

theorem showVerdict_requests (now : Nat) (data : JVal) (p : Page) :
    (showVerdict now data p).page.requests = p.requests := by
  unfold showVerdict
  split <;> rfl

theorem showReasoning_requests (r : JVal) (p : Page) :
    (showReasoning r p).page.requests = p.requests := by
  unfold showReasoning fallacyChips biasChips reasoningTexts Outcome.andThen Outcome.eval
    Outcome.done Outcome.throw clearReasoning
  cases prop r "fallacy" <;> cases prop r "bias" <;> cases prop r "debiased_text" <;>
    cases prop r "explanation" <;> cases prop r "generative_explainer" <;> simp <;>
    repeat (first | rfl | split)

theorem showProvenance_requests (v : JVal) (p : Page) :
    (showProvenance v p).page.requests = p.requests := by
  unfold showProvenance Outcome.eval Outcome.done Outcome.throw
  cases prop v "provenance_graph" with
  | error e => rfl
  | ok g =>
    simp only
    split
    · rfl
    · cases provElements g <;> rfl

theorem showSocialSignals_requests (v : JVal) (p : Page) :
    (showSocialSignals v p).page.requests = p.requests := by
  unfold showSocialSignals Outcome.done Outcome.throw
  split
  · rfl
  · split
    · rfl
    · split <;> rfl

theorem eval_requests {α : Type} (e : Except JsError α) (p : Page) (f : α → Outcome)
    (hf : ∀ v, (f v).page.requests = p.requests) :
    (Outcome.eval e p f).page.requests = p.requests := by
  cases e with
  | error err => rfl
  | ok v => exact hf v

theorem andThen_requests (o : Outcome) (next : Page → Outcome) (A : List Request)
    (ho : o.page.requests = A) (hn : ∀ q, q.requests = A → (next q).page.requests = A) :
    (o.andThen next).page.requests = A := by
  unfold Outcome.andThen
  cases h : o.thrown with
  | none => exact hn _ ho
  | some e => exact ho

/-- The `try` block of the send handler logs one request, the one that
carries the payload, and nothing else of it touches the request log. -/
theorem sendTry_requests (formData : FormData) (reply : NetReply) (now : Nat) (p : Page) :
    (sendTry formData reply now p).page.requests = p.requests ++
      [⟨utf16 "POST", utf16 "http://127.0.0.1:8000/api/factcheck", .form formData⟩] := by
  unfold sendTry
  match reply with
  | .rejected => rfl
  | .response _ none => rfl
  | .response _ (some data) =>
    simp only
    refine andThen_requests _ _ _ (showVerdict_requests _ _ _) fun q hq => ?_
    unfold afterVerdict
    refine andThen_requests _ _ _
      ((eval_requests _ _ _ fun _ => showReasoning_requests _ _).trans hq) fun q hq => ?_
    refine andThen_requests _ _ _
      ((eval_requests _ _ _ fun _ => showProvenance_requests _ _).trans hq) fun q hq => ?_
    refine andThen_requests _ _ _
      ((eval_requests _ _ _ fun _ => showSocialSignals_requests _ _).trans hq) fun q hq => ?_
    refine andThen_requests _ _ _ ((eval_requests _ _ _ fun status => ?_).trans hq)
      fun q hq => hq
    split
    · exact eval_requests _ _ _ fun _ => rfl
    · rfl

theorem sendFinish_requests (formData : FormData) (reply : NetReply) (now : Nat) (p : Page) :
    (sendFinish formData reply now p).page.requests = p.requests ++
      [⟨utf16 "POST", utf16 "http://127.0.0.1:8000/api/factcheck", .form formData⟩] := by
  have h := sendTry_requests formData reply now p
  unfold sendFinish
  simp only
  split <;> simpa [Outcome.done, resetFields, addMessage] using h

/-- The request of the send handler for a given payload. -/
theorem sendClick_requests (p p1 : Page) (formData : FormData) (reply : NetReply) (now : Nat)
    (h : sendStart p = some (p1, formData)) :
    (sendClick reply now p).page.requests = p.requests ++
      [⟨utf16 "POST", utf16 "http://127.0.0.1:8000/api/factcheck", .form formData⟩] := by
  have hp : p1.requests = p.requests := by
    unfold sendStart at h
    split at h
    · exact absurd h (by simp)
    · simp only [Option.some.injEq, Prod.mk.injEq] at h
      rw [← h.1]
      rfl
  simp only [sendClick, h]
  rw [sendFinish_requests, hp]

/-! ### The send handler up to the request -/

theorem truthy_str (s : JStr) : truthy (.str s) = !s.isEmpty := rfl

theorem isEmpty_eq_false_iff (s : JStr) : s.isEmpty = false ↔ s ≠ [] := by
  cases s <;> simp

theorem trim_eq_nil_iff (s : JStr) : trim s = [] ↔ ∀ c ∈ s, isJsSpace c = true := by
  unfold trim
  rw [List.reverse_eq_nil_iff, List.dropWhile_eq_nil_iff]
  constructor
  · intro h
    have hd : s.dropWhile isJsSpace = [] := by
      by_contra hne
      have h0 := List.head_dropWhile_not isJsSpace s hne
      have hmem : (s.dropWhile isJsSpace).head hne ∈ (s.dropWhile isJsSpace).reverse :=
        List.mem_reverse.mpr (List.head_mem hne)
      rw [h _ hmem] at h0
      exact absurd h0 (by simp)
    exact List.dropWhile_eq_nil_iff.mp hd
  · intro h x hx
    rw [List.dropWhile_eq_nil_iff.mpr h] at hx
    simp at hx

theorem userMessage_eq (p : Page)
    (h : trim p.chatField ≠ [] ∨ trim p.claimText ≠ [] ∨ trim p.claimUrl ≠ [] ∨
      ∃ image, p.claimImage = some image ∧ image.name ≠ []) :
    userMessage p = .str (displayLabel p) ∧ displayLabel p ≠ [] := by
  unfold userMessage displayLabel orElse
  by_cases h1 : trim p.chatField = []
  · by_cases h2 : trim p.claimText = []
    · by_cases h3 : trim p.claimUrl = []
      · rcases h with h | h | h | ⟨image, hi, hn⟩
        · exact absurd h1 h
        · exact absurd h2 h
        · exact absurd h3 h
        · have e := (isEmpty_eq_false_iff _).2 hn
          simp [h1, h2, h3, hi, truthy, hn, e, List.find?]
      · have e := (isEmpty_eq_false_iff _).2 h3
        simp [h1, h2, h3, e, truthy, List.find?]
    · have e := (isEmpty_eq_false_iff _).2 h2
      simp [h1, h2, e, truthy, List.find?]
  · have e := (isEmpty_eq_false_iff _).2 h1
    simp [h1, e, truthy, List.find?]

/-- C1: when one of the trimmed chat field, trimmed claim text, trimmed claim
URL or image file name is non-empty, the send handler reaches the call of
`fetch`, and the page at that moment differs from the page at the click by
exactly one new chat-log entry, of type `user`, whose text is the first
non-empty value in that order; in particular no request has been logged yet,
and the handler then issues one request, whatever the reply. -/
theorem C1_user_entry_before_request (p : Page)
    (h : trim p.chatField ≠ [] ∨ trim p.claimText ≠ [] ∨ trim p.claimUrl ≠ [] ∨
      ∃ image, p.claimImage = some image ∧ image.name ≠ []) :
    ∃ formData,
      sendStart p = some
        ({ p with chatWindow := p.chatWindow ++ [chatEntry "user" (displayLabel p)] }, formData)
      ∧ displayLabel p ≠ []
      ∧ ∀ reply now, (sendClick reply now p).page.requests = p.requests ++
          [⟨utf16 "POST", utf16 "http://127.0.0.1:8000/api/factcheck", .form formData⟩] := by
  obtain ⟨hu, hne⟩ := userMessage_eq p h
  have ht : truthy (userMessage p) = true := by
    rw [hu, truthy_str]
    simpa [isEmpty_eq_false_iff] using hne
  have hs : sendStart p = some
      ({ p with chatWindow := p.chatWindow ++ [chatEntry "user" (displayLabel p)] },
        buildFormData p) := by
    unfold sendStart
    rw [if_neg (by simp [ht])]
    simp [hu, addMessage, innerTextOf, toStr, chatEntry, utf16]
  exact ⟨buildFormData p, hs, hne, fun reply now => sendClick_requests p _ _ reply now hs⟩

/-- C1 on `moonPage`: the chat field is empty, the claim text is not, and the
entry shows the trimmed claim text. -/
theorem C1_user_entry_before_request_witness :
    (trim moonPage.chatField ≠ [] ∨ trim moonPage.claimText ≠ [] ∨ trim moonPage.claimUrl ≠ [] ∨
      ∃ image, moonPage.claimImage = some image ∧ image.name ≠ [])
    ∧ displayLabel moonPage = utf16 "The moon landing was faked"
    ∧ ∃ formData,
      sendStart moonPage = some
        ({ moonPage with
            chatWindow := moonPage.chatWindow ++ [chatEntry "user" (displayLabel moonPage)] },
          formData)
      ∧ displayLabel moonPage ≠ []
      ∧ ∀ reply now, (sendClick reply now moonPage).page.requests = moonPage.requests ++
          [⟨utf16 "POST", utf16 "http://127.0.0.1:8000/api/factcheck", .form formData⟩] :=
  ⟨Or.inr (Or.inl (by decide)), by decide,
    C1_user_entry_before_request moonPage (Or.inr (Or.inl (by decide)))⟩

/-- C2: when the chat field, the claim text and the claim URL hold white
space only (or nothing) and no image name is available, the display label is
empty and the send handler returns at once: the page after the click is the
page before it (chat log, panels, input fields and request log included) and
no exception leaves the handler. -/
theorem C2_empty_label_is_noop (p : Page) (reply : NetReply) (now : Nat)
    (hchat : ∀ c ∈ p.chatField, isJsSpace c = true)
    (htext : ∀ c ∈ p.claimText, isJsSpace c = true)
    (hurl : ∀ c ∈ p.claimUrl, isJsSpace c = true)
    (himage : ∀ image, p.claimImage = some image → image.name = []) :
    displayLabel p = [] ∧ sendStart p = none ∧ sendClick reply now p = ⟨p, none⟩ := by
  have h1 := (trim_eq_nil_iff _).2 hchat
  have h2 := (trim_eq_nil_iff _).2 htext
  have h3 := (trim_eq_nil_iff _).2 hurl
  have hu : truthy (userMessage p) = false := by
    unfold userMessage orElse
    cases hi : p.claimImage with
    | none => simp [h1, h2, h3, truthy]
    | some image => simp [h1, h2, h3, truthy, himage image hi]
  have hs : sendStart p = none := by simp [sendStart, hu]
  refine ⟨?_, hs, ?_⟩
  · unfold displayLabel
    cases hi : p.claimImage with
    | none => simp [h1, h2, h3, List.find?]
    | some image => simp [h1, h2, h3, List.find?, himage image hi]
  · simp [sendClick, hs, Outcome.done]

/-- C2 on `blanksOnlyPage`, whose three text fields hold blanks, a tab, a
no-break space and a line feed. -/
theorem C2_empty_label_is_noop_witness :
    (∀ c ∈ blanksOnlyPage.chatField, isJsSpace c = true)
    ∧ (∀ c ∈ blanksOnlyPage.claimText, isJsSpace c = true)
    ∧ (∀ c ∈ blanksOnlyPage.claimUrl, isJsSpace c = true)
    ∧ (∀ image, blanksOnlyPage.claimImage = some image → image.name = [])
    ∧ displayLabel blanksOnlyPage = [] ∧ sendStart blanksOnlyPage = none
    ∧ sendClick .rejected 0 blanksOnlyPage = ⟨blanksOnlyPage, none⟩ :=
  ⟨by decide, by decide, by decide, (fun _ h => nomatch h),
    C2_empty_label_is_noop blanksOnlyPage .rejected 0 (by decide) (by decide) (by decide)
      (fun _ h => nomatch h)⟩

theorem claim_text_ne_claim_url : utf16 "claim_text" ≠ utf16 "claim_url" := by decide

theorem claim_text_ne_image : utf16 "claim_text" ≠ utf16 "image" := by decide

theorem claim_url_ne_image : utf16 "claim_url" ≠ utf16 "image" := by decide

/-- C3: the payload of a submitted claim holds at most one `claim_text`
field, whose value is the trimmed chat field when that is non-empty, otherwise
the trimmed claim text when that is non-empty, otherwise no such field; it
holds `claim_url` exactly when the trimmed claim URL is non-empty and `image`
exactly when an image is attached; it holds nothing else; and it is the body
of the one request the handler issues. -/
theorem C3_payload_fields (p p1 : Page) (formData : FormData)
    (h : sendStart p = some (p1, formData)) :
    formData.getAll "claim_text" =
        (if trim p.chatField ≠ [] then [.text (trim p.chatField)]
         else if trim p.claimText ≠ [] then [.text (trim p.claimText)] else [])
    ∧ formData.getAll "claim_url" =
        (if trim p.claimUrl ≠ [] then [.text (trim p.claimUrl)] else [])
    ∧ formData.getAll "image" = (p.claimImage.map FormValue.file).toList
    ∧ (formData.getAll "claim_text").length ≤ 1
    ∧ formData.length = (formData.getAll "claim_text").length
        + (formData.getAll "claim_url").length + (formData.getAll "image").length
    ∧ ∀ reply now, (sendClick reply now p).page.requests = p.requests ++
        [⟨utf16 "POST", utf16 "http://127.0.0.1:8000/api/factcheck", .form formData⟩] := by
  refine and_assoc.mp (and_assoc.mp (and_assoc.mp (and_assoc.mp
    ⟨?_, fun reply now => sendClick_requests p p1 formData reply now h⟩)))
  have hfd : formData = buildFormData p := by
    unfold sendStart at h
    split at h
    · exact absurd h (by simp)
    · simp only [Option.some.injEq, Prod.mk.injEq] at h
      exact h.2.symm
  subst hfd
  have k1 := claim_text_ne_claim_url
  have k2 := claim_text_ne_image
  have k3 := claim_url_ne_image
  unfold buildFormData
  by_cases h1 : trim p.chatField = [] <;> by_cases h2 : trim p.claimText = [] <;>
    by_cases h3 : trim p.claimUrl = [] <;> cases hi : p.claimImage <;>
    simp [h1, h2, h3, truthy, FormData.append, FormData.getAll, List.filter, k1, k2, k3,
      k1.symm, k2.symm, k3.symm]

/-- C3 on `moonPage`: the payload holds the trimmed claim text and the claim
URL, and no image. -/
theorem C3_payload_fields_witness :
    sendStart moonPage =
      some ({ moonPage with
              chatWindow := [chatEntry "user" (utf16 "The moon landing was faked")] },
            [(utf16 "claim_text", .text (utf16 "The moon landing was faked")),
             (utf16 "claim_url", .text (utf16 "https://example.org/moon"))])
    ∧ (buildFormData moonPage).getAll "claim_text" =
        [.text (utf16 "The moon landing was faked")]
    ∧ (buildFormData moonPage).getAll "claim_url" = [.text (utf16 "https://example.org/moon")]
    ∧ (buildFormData moonPage).getAll "image" = [] :=
  have h : sendStart moonPage = some
      ({ moonPage with
          chatWindow := [chatEntry "user" (utf16 "The moon landing was faked")] },
        buildFormData moonPage) := by rfl
  have t := C3_payload_fields moonPage _ _ h
  ⟨by rfl, by rfl, by rfl, t.2.2.1⟩

theorem showReasoning_chat (r : JVal) (p : Page) :
    (showReasoning r p).page.chatWindow = p.chatWindow := by
  unfold showReasoning fallacyChips biasChips reasoningTexts Outcome.andThen Outcome.eval
    Outcome.done Outcome.throw clearReasoning
  cases prop r "fallacy" <;> cases prop r "bias" <;> cases prop r "debiased_text" <;>
    cases prop r "explanation" <;> cases prop r "generative_explainer" <;> simp <;>
    repeat (first | rfl | split)

theorem showProvenance_chat (v : JVal) (p : Page) :
    (showProvenance v p).page.chatWindow = p.chatWindow := by
  unfold showProvenance Outcome.eval Outcome.done Outcome.throw
  cases prop v "provenance_graph" with
  | error e => rfl
  | ok g =>
    simp only
    split
    · rfl
    · cases provElements g <;> rfl

theorem showSocialSignals_chat (v : JVal) (p : Page) :
    (showSocialSignals v p).page.chatWindow = p.chatWindow := by
  unfold showSocialSignals Outcome.done Outcome.throw
  split
  · rfl
  · split
    · rfl
    · split <;> rfl

theorem eval_chat {α : Type} (e : Except JsError α) (p : Page) (f : α → Outcome)
    (hf : ∀ v, (f v).page.chatWindow = p.chatWindow) :
    (Outcome.eval e p f).page.chatWindow = p.chatWindow := by
  cases e with
  | error err => rfl
  | ok v => exact hf v

theorem andThen_chat_of_thrown (o : Outcome) (next : Page → Outcome) (A : List ChatNode)
    (ho : o.page.chatWindow = A)
    (hn : ∀ q, q.chatWindow = A → (next q).thrown ≠ none → (next q).page.chatWindow = A)
    (ht : (o.andThen next).thrown ≠ none) : (o.andThen next).page.chatWindow = A := by
  unfold Outcome.andThen at ht ⊢
  cases h : o.thrown with
  | none =>
    simp only [h] at ht ⊢
    exact hn _ ho ht
  | some e =>
    simp only [h]
    exact ho

/-- When a statement after `showVerdict` throws, the chat log is as
`showVerdict` left it. -/
theorem afterVerdict_chat_of_thrown (data : JVal) (p : Page)
    (ht : (afterVerdict data p).thrown ≠ none) :
    (afterVerdict data p).page.chatWindow = p.chatWindow := by
  unfold afterVerdict at ht ⊢
  refine andThen_chat_of_thrown _ _ _ (eval_chat _ _ _ fun _ => showReasoning_chat _ _) ?_ ht
  intro q hq
  refine andThen_chat_of_thrown _ _ _
    ((eval_chat _ _ _ fun _ => showProvenance_chat _ _).trans hq) ?_
  intro q hq
  refine andThen_chat_of_thrown _ _ _
    ((eval_chat _ _ _ fun _ => showSocialSignals_chat _ _).trans hq) ?_
  intro q hq
  refine andThen_chat_of_thrown _ _ _ ((eval_chat _ _ _ fun status => ?_).trans hq) ?_
  · split
    · exact eval_chat _ _ _ fun _ => rfl
    · rfl
  · intro q _ h
    exact absurd rfl h

/-- When the `try` block of the send handler throws, the chat log has grown
by at most one verdict card, with no export handler bound. -/
theorem sendTry_chat_of_thrown (formData : FormData) (reply : NetReply) (now : Nat) (p : Page)
    (ht : (sendTry formData reply now p).thrown ≠ none) :
    ∃ cards, (sendTry formData reply now p).page.chatWindow = p.chatWindow ++ cards
      ∧ cards.length ≤ 1 ∧ ∀ c ∈ cards, ∃ cls html, c = ChatNode.card cls html none := by
  unfold sendTry at ht ⊢
  match reply with
  | .rejected => exact ⟨[], by simp [Outcome.throw], by simp, by simp⟩
  | .response _ none => exact ⟨[], by simp [Outcome.throw], by simp, by simp⟩
  | .response _ (some data) =>
    simp only at ht ⊢
    unfold showVerdict at ht ⊢
    cases hv : verdictCard now data with
    | error e => exact ⟨[], by simp [Outcome.throw, Outcome.andThen], by simp, by simp⟩
    | ok card =>
      obtain ⟨cls, html⟩ := card
      simp only [hv, Outcome.done, Outcome.andThen] at ht ⊢
      refine ⟨[.card cls html none], ?_, by simp, ?_⟩
      · rw [afterVerdict_chat_of_thrown _ _ ht]
      · intro c hc
        exact ⟨cls, html, by simpa using hc⟩

/-- C4, as stated, fails: the reply `edgelessBody` makes `showProvenance`
throw after `showVerdict` and `showReasoning` have run; the submission fails
(the system message is shown), yet a verdict card has been appended to the
chat log, the fallacy region holds the chips of this submission and the
provenance container has been emptied. -/
theorem C4_partial_render_counterexample :
    ∃ p1 formData cls html,
      sendStart stalePage = some (p1, formData)
      ∧ (sendTry formData (.response true (some edgelessBody)) 0 p1).thrown = some .typeError
      ∧ (sendClick (.response true (some edgelessBody)) 0 stalePage).page.chatWindow =
          [chatEntry "user" (utf16 "Is this true?"), .card cls html none,
            chatEntry "system" backendErrorText]
      ∧ stalePage.fallacies = [⟨utf16 "chip fallacy", utf16 "strawman"⟩]
      ∧ (sendClick (.response true (some edgelessBody)) 0 stalePage).page.fallacies =
          [⟨utf16 "chip fallacy", utf16 "ad hominem"⟩]
      ∧ stalePage.provGraph.text = utf16 "No provenance data."
      ∧ (sendClick (.response true (some edgelessBody)) 0 stalePage).page.provGraph.text = [] :=
  ⟨_, _, _, _, rfl, rfl, rfl, rfl, rfl, rfl, rfl⟩

/-- C4, amended: when the `try` block of a submission throws (the transport
fails, the body is not JSON, or a renderer raises an exception), no exception
leaves the handler, the chat log grows by exactly one `system` message with the
fixed text, placed after at most one verdict card, and the four input fields
are cleared; when the transport fails or the body is not JSON, nothing but this
message is added to the chat log and the reasoning, provenance, social and
ledger regions and the widget logs are as they were at the click. -/
theorem C4_failure_message_and_reset (p p1 : Page) (formData : FormData) (reply : NetReply)
    (now : Nat) (hs : sendStart p = some (p1, formData))
    (hf : (sendTry formData reply now p1).thrown ≠ none) :
    (sendClick reply now p).thrown = none
    ∧ (∃ cards, (sendClick reply now p).page.chatWindow =
          p1.chatWindow ++ cards ++ [chatEntry "system" backendErrorText]
        ∧ cards.length ≤ 1 ∧ ∀ c ∈ cards, ∃ cls html, c = ChatNode.card cls html none)
    ∧ (sendClick reply now p).page.chatField = []
    ∧ (sendClick reply now p).page.claimText = []
    ∧ (sendClick reply now p).page.claimUrl = []
    ∧ (sendClick reply now p).page.claimImage = none
    ∧ ((reply = .rejected ∨ ∃ ok, reply = .response ok none) →
        (sendClick reply now p).page.chatWindow =
          p1.chatWindow ++ [chatEntry "system" backendErrorText]
        ∧ (sendClick reply now p).page.fallacies = p.fallacies
        ∧ (sendClick reply now p).page.biases = p.biases
        ∧ (sendClick reply now p).page.debiased = p.debiased
        ∧ (sendClick reply now p).page.explanation = p.explanation
        ∧ (sendClick reply now p).page.generativeExplainer = p.generativeExplainer
        ∧ (sendClick reply now p).page.provGraph = p.provGraph
        ∧ (sendClick reply now p).page.socialSignals = p.socialSignals
        ∧ (sendClick reply now p).page.ledgerHash = p.ledgerHash
        ∧ (sendClick reply now p).page.charts = p.charts
        ∧ (sendClick reply now p).page.graphs = p.graphs) := by
  have hp1 : p1 = addMessage (innerTextOf (userMessage p)) "user" p := by
    unfold sendStart at hs
    split at hs
    · exact absurd hs (by simp)
    · simp only [Option.some.injEq, Prod.mk.injEq] at hs
      exact hs.1.symm
  obtain ⟨cards, hc, hlen, hcards⟩ := sendTry_chat_of_thrown formData reply now p1 hf
  obtain ⟨e, he⟩ := Option.ne_none_iff_exists'.mp hf
  have hclick : sendClick reply now p =
      .done (resetFields (addMessage backendErrorText "system"
        { (sendTry formData reply now p1).page with
          consoleErrors := (sendTry formData reply now p1).page.consoleErrors ++ [e] })) := by
    simp [sendClick, hs, sendFinish, he]
  rw [hclick]
  refine ⟨rfl, ⟨cards, ?_, hlen, hcards⟩, rfl, rfl, rfl, rfl, ?_⟩
  · simp [Outcome.done, resetFields, addMessage, hc, chatEntry, utf16]
  · intro hr
    have hpage : (sendTry formData reply now p1).page = { p1 with requests := p1.requests ++
        [⟨utf16 "POST", utf16 "http://127.0.0.1:8000/api/factcheck", .form formData⟩] } := by
      rcases hr with hr | ⟨ok, hr⟩ <;> subst hr <;> rfl
    rw [hpage]
    subst hp1
    simp [Outcome.done, resetFields, addMessage, chatEntry, utf16]

/-- C4, amended, on `moonPage` with a rejected `fetch`: the chat log gains
the user entry and the system message, nothing else, and the claim text is
cleared. -/
theorem C4_failure_message_and_reset_witness :
    sendStart moonPage = some (addMessage (utf16 "The moon landing was faked") "user" moonPage,
      buildFormData moonPage)
    ∧ (sendTry (buildFormData moonPage) .rejected 0
        (addMessage (utf16 "The moon landing was faked") "user" moonPage)).thrown ≠ none
    ∧ (sendClick .rejected 0 moonPage).thrown = none
    ∧ (sendClick .rejected 0 moonPage).page.chatWindow =
        [chatEntry "user" (utf16 "The moon landing was faked"),
          chatEntry "system" backendErrorText]
    ∧ (sendClick .rejected 0 moonPage).page.claimText = [] :=
  have hs : sendStart moonPage = some
      (addMessage (utf16 "The moon landing was faked") "user" moonPage,
        buildFormData moonPage) := by rfl
  have hf : (sendTry (buildFormData moonPage) .rejected 0
      (addMessage (utf16 "The moon landing was faked") "user" moonPage)).thrown ≠ none :=
    fun h => nomatch h
  have t := C4_failure_message_and_reset moonPage _ _ .rejected 0 hs hf
  ⟨hs, hf, t.1, (t.2.2.2.2.2.2 (Or.inl rfl)).1, t.2.2.2.1⟩

/-- C5, evaluated where the code departs from it: a parsed response whose
provenance graph has a `nodes` collection and no `edges` collection makes
`showProvenance` throw a `TypeError`, the `try` block of the send handler
throws, and the chat log ends with the `system` error message; the sibling
case, `nodes` missing, is rendered as the default text without an exception. -/
theorem C5_missing_edges_throws :
    (showProvenance (mkObj [("provenance_graph", mkObj [("nodes", .arr [])])]) blankPage).thrown
        = some .typeError
    ∧ (∃ p1 formData, sendStart stalePage = some (p1, formData)
        ∧ (sendTry formData (.response true (some noEdgesBody)) 0 p1).thrown = some .typeError)
    ∧ (sendClick (.response true (some noEdgesBody)) 0 stalePage).page.chatWindow.getLast?
        = some (chatEntry "system" backendErrorText)
    ∧ (∃ p1 formData, sendStart stalePage = some (p1, formData)
        ∧ (sendTry formData (.response true (some noNodesBody)) 0 p1).thrown = none)
    ∧ (sendClick (.response true (some noNodesBody)) 0 stalePage).page.provGraph.text
        = utf16 "No provenance data." :=
  ⟨rfl, ⟨_, _, rfl, rfl⟩, rfl, ⟨_, _, rfl, rfl⟩, rfl⟩

theorem gt50_num_length (u : JStr) : gt50 (.num u.length) = decide (50 < u.length) := by
  simp [gt50, toNumber]

theorem sourceLink_str (u : JStr) :
    sourceLink (.str u) = .ok (linkMarkup u (sourceLabel u)) := by
  unfold sourceLink linkMarkup sourceLabel
  by_cases h : 50 < u.length
  · simp [prop, getOwn, gt50_num_length, h, bind, Except.bind, pure, Except.pure, toStr,
      substring0]
  · simp [prop, getOwn, gt50_num_length, h, bind, Except.bind, pure, Except.pure, toStr]

theorem mapExcept_sourceLink (l : List JStr) :
    mapExcept sourceLink (l.map .str) = .ok (l.map fun u => linkMarkup u (sourceLabel u)) := by
  induction l with
  | nil => rfl
  | cons u rest ih => simp [mapExcept, sourceLink_str, ih]

theorem linkMarkup_head (target label : JStr) : ∃ t, linkMarkup target label = 0x3C :: t :=
  ⟨_, rfl⟩

theorem sourcesMarkup_cons_head (s : JStr) (rest : List JStr) :
    ∃ t, sourcesMarkup (some (s :: rest)) = 0x3C :: t := by
  obtain ⟨t, ht⟩ := linkMarkup_head s (sourceLabel s)
  exact ⟨t ++ (rest.map fun u => linkMarkup u (sourceLabel u)).flatten, by
    simp [sourcesMarkup, ht]⟩

/-- The markup of the sources block, for a `relevant_sources` that is absent,
`null` or a sequence of strings. -/
theorem sourcesBlock_eq (data : JVal) (isNull : Bool) (srcs : Option (List JStr))
    (h : prop data "relevant_sources" = .ok (sourcesField isNull srcs)) :
    sourcesBlock data = .ok (sourcesMarkup srcs) := by
  unfold sourcesBlock
  rw [h]
  match srcs with
  | none =>
    cases isNull <;>
      simp [sourcesField, orElse, truthy, mapArray, mapExcept, bind, Except.bind, pure,
        Except.pure, sourcesMarkup]
  | some [] =>
    simp [sourcesField, orElse, truthy, mapArray, mapExcept, bind, Except.bind, pure,
      Except.pure, sourcesMarkup]
  | some (s :: rest) =>
    obtain ⟨t, ht⟩ := sourcesMarkup_cons_head s rest
    have hm := mapExcept_sourceLink (s :: rest)
    simp only [sourcesField, orElse, truthy, mapArray, if_true, bind, Except.bind, hm, pure,
      Except.pure]
    have hr : ((s :: rest).map fun u => linkMarkup u (sourceLabel u)).flatten
        = sourcesMarkup (some (s :: rest)) := rfl
    rw [hr, ht]
    simp

theorem sourcesMarkup_literal_iff (srcs : Option (List JStr)) :
    sourcesMarkup srcs = utf16 "No sources available" ↔ srcs = none ∨ srcs = some [] := by
  constructor
  · intro he
    match srcs, he with
    | none, _ => exact Or.inl rfl
    | some [], _ => exact Or.inr rfl
    | some (s :: rest), he =>
      obtain ⟨t, ht⟩ := sourcesMarkup_cons_head s rest
      have hn : utf16 "No sources available" = 0x4E :: utf16 "o sources available" := by
        decide
      rw [ht, hn] at he
      simp at he
  · rintro (rfl | rfl) <;> rfl

theorem sourcesReference_text_iff (srcs : Option (List JStr)) :
    sourcesReference srcs = .text (utf16 "No sources available")
      ↔ srcs = none ∨ srcs = some [] := by
  constructor
  · intro he
    match srcs, he with
    | none, _ => exact Or.inl rfl
    | some [], _ => exact Or.inr rfl
    | some (s :: rest), he => simp [sourcesReference] at he
  · rintro (rfl | rfl) <;> rfl

/-! ### The reading of the markup -/

theorem readLinks_valueDq (links : List Link) (attrs : List (JStr × JStr)) (n : JStr)
    (label : JStr) (S : JStr) (h : ∀ c ∈ S, c ≠ 0x22) (v rest : JStr) :
    readLinks .valueDq links attrs (some (n, v)) label (S ++ rest)
      = readLinks .valueDq links attrs (some (n, v ++ S)) label rest := by
  induction S generalizing v with
  | nil => simp
  | cons c S ih =>
    have hc : c ≠ 0x22 := h c (List.mem_cons_self _ _)
    have hS : ∀ d ∈ S, d ≠ 0x22 := fun d hd => h d (List.mem_cons_of_mem _ hd)
    simp only [List.cons_append, readLinks, if_neg hc, pushValue]
    exact (ih hS (v ++ [c])).trans (by simp)

theorem readLinks_text (links : List Link) (attrs : List (JStr × JStr))
    (cur : Option (JStr × JStr)) (L : JStr) (h : ∀ c ∈ L, c ≠ 0x3C) (label rest : JStr) :
    readLinks .text links attrs cur label (L ++ rest)
      = readLinks .text links attrs cur (label ++ L) rest := by
  induction L generalizing label with
  | nil => simp
  | cons c L ih =>
    have hc : c ≠ 0x3C := h c (List.mem_cons_self _ _)
    have hL : ∀ d ∈ L, d ≠ 0x3C := fun d hd => h d (List.mem_cons_of_mem _ hd)
    simp only [List.cons_append, readLinks, if_neg hc]
    exact (ih hL (label ++ [c])).trans (by simp)

theorem readLinks_open (links : List Link) (rest : JStr) :
    readLinks .between links [] none [] (utf16 "<a href=" ++ dq ++ rest)
      = readLinks .valueDq links [] (some (utf16 "href", [])) [] rest := by
  rfl

theorem readLinks_middle (links : List Link) (S rest : JStr) :
    readLinks .valueDq links [] (some (utf16 "href", S)) []
        (dq ++ utf16 " target=" ++ dq ++ utf16 "_blank" ++ dq ++ utf16 ">" ++ rest)
      = readLinks .text links [(utf16 "href", S), (utf16 "target", utf16 "_blank")] none []
          rest := by
  rfl

theorem readLinks_close (links : List Link) (attrs : List (JStr × JStr))
    (cur : Option (JStr × JStr)) (label rest : JStr) :
    readLinks .text links attrs cur label (utf16 "</a>" ++ rest)
      = readLinks .between (links ++ [⟨hrefOf attrs, label⟩]) [] none [] rest := by
  rfl

/-- The reader on the markup of one link whose target holds no double quote
and whose label holds no `<`: one link, with that target and that label. -/
theorem readLinks_linkMarkup (links : List Link) (S L rest : JStr)
    (hS : ∀ c ∈ S, c ≠ 0x22) (hL : ∀ c ∈ L, c ≠ 0x3C) :
    readLinks .between links [] none [] (linkMarkup S L ++ rest)
      = readLinks .between (links ++ [⟨S, L⟩]) [] none [] rest := by
  have e : linkMarkup S L ++ rest = utf16 "<a href=" ++ dq ++ (S ++ (dq ++ utf16 " target="
      ++ dq ++ utf16 "_blank" ++ dq ++ utf16 ">" ++ (L ++ (utf16 "</a>" ++ rest)))) := by
    simp only [linkMarkup, List.append_assoc]
  rw [e, readLinks_open, readLinks_valueDq _ _ _ _ S hS, List.nil_append, readLinks_middle,
    readLinks_text _ _ _ L hL, List.nil_append, readLinks_close]
  rfl

theorem readLinks_block (lab : JStr → JStr) (l : List JStr) (links : List Link)
    (h : ∀ s ∈ l, (∀ c ∈ s, c ≠ 0x22) ∧ ∀ c ∈ lab s, c ≠ 0x3C) :
    readLinks .between links [] none [] (l.map fun s => linkMarkup s (lab s)).flatten
      = some (links ++ l.map fun s => ⟨s, lab s⟩) := by
  induction l generalizing links with
  | nil => simp [readLinks]
  | cons s l ih =>
    have hs := h s (List.mem_cons_self _ _)
    have hl := fun d hd => h d (List.mem_cons_of_mem _ hd)
    simp only [List.map_cons, List.flatten_cons]
    rw [readLinks_linkMarkup _ _ _ _ hs.1 hs.2, ih _ hl]
    simp

theorem mem_sourceLabel (s : JStr) (c : Nat) (hc : c ∈ sourceLabel s) : c ∈ s ∨ c = 0x2E := by
  unfold sourceLabel at hc
  split at hc
  · rcases List.mem_append.mp hc with h | h
    · exact Or.inl (List.mem_of_mem_take h)
    · have hd : utf16 "..." = [0x2E, 0x2E, 0x2E] := by decide
      rw [hd] at h
      simp at h
      exact Or.inr h
  · exact Or.inl hc

theorem isMarkupUnit_false (c : Nat) (h : isMarkupUnit c = false) :
    c ≠ 0x22 ∧ c ≠ 0x3C ∧ isRewritten c = false := by
  simp only [isMarkupUnit, Bool.or_eq_false_iff, beq_eq_false_iff_ne] at h
  refine ⟨h.1.1.1.2, h.1.1.2, ?_⟩
  simp [isRewritten, h.1.1.1.1, h.1.2, h.2]

theorem linkMarkup_not_rewritten (S L : JStr) (hS : ∀ c ∈ S, isRewritten c = false)
    (hL : ∀ c ∈ L, isRewritten c = false) : ∀ c ∈ linkMarkup S L, isRewritten c = false := by
  have h1 : ∀ c ∈ utf16 "<a href=", isRewritten c = false := by decide
  have h2 : ∀ c ∈ dq, isRewritten c = false := by decide
  have h3 : ∀ c ∈ utf16 " target=", isRewritten c = false := by decide
  have h4 : ∀ c ∈ utf16 "_blank", isRewritten c = false := by decide
  have h5 : ∀ c ∈ utf16 ">", isRewritten c = false := by decide
  have h6 : ∀ c ∈ utf16 "</a>", isRewritten c = false := by decide
  intro c hc
  simp only [linkMarkup, List.mem_append] at hc
  rcases hc with (((((((((h | h) | h) | h) | h) | h) | h) | h) | h) | h) | h
  · exact h1 c h
  · exact h2 c h
  · exact hS c h
  · exact h2 c h
  · exact h3 c h
  · exact h2 c h
  · exact h4 c h
  · exact h2 c h
  · exact h5 c h
  · exact hL c h
  · exact h6 c h

/-- The reader on the markup of the sources block, for sources that hold no
markup unit: what the specification describes. -/
theorem readSources_sourcesMarkup (srcs : Option (List JStr))
    (hplain : ∀ s ∈ srcs.getD [], ∀ c ∈ s, isMarkupUnit c = false) :
    readSources (sourcesMarkup srcs) = some (sourcesReference srcs) := by
  match srcs, hplain with
  | none, _ => decide
  | some [], _ => decide
  | some (s :: rest), hplain =>
    simp only [Option.getD_some] at hplain
    obtain ⟨t, ht⟩ := sourcesMarkup_cons_head s rest
    have hclean : ∀ c ∈ sourcesMarkup (some (s :: rest)), isRewritten c = false := by
      intro c hc
      simp only [sourcesMarkup, List.mem_flatten, List.mem_map] at hc
      obtain ⟨m, ⟨u, hu, rfl⟩, hcm⟩ := hc
      refine linkMarkup_not_rewritten u (sourceLabel u)
        (fun d hd => (isMarkupUnit_false d (hplain u hu d hd)).2.2) (fun d hd => ?_) c hcm
      rcases mem_sourceLabel u d hd with h | h
      · exact (isMarkupUnit_false d (hplain u hu d h)).2.2
      · subst h
        decide
    have hany : (sourcesMarkup (some (s :: rest))).any isRewritten = false := by
      rw [List.any_eq_false]
      intro c hc
      simp [hclean c hc]
    have hlt : (sourcesMarkup (some (s :: rest))).any (fun c => c == 0x3C) = true := by
      rw [ht]
      simp
    have hread := readLinks_block sourceLabel (s :: rest) [] fun u hu =>
      ⟨fun d hd => (isMarkupUnit_false d (hplain u hu d hd)).1, fun d hd => by
        rcases mem_sourceLabel u d hd with h | h
        · exact (isMarkupUnit_false d (hplain u hu d h)).2.1
        · subst h
          decide⟩
    unfold readSources
    rw [hany, hlt]
    simp only [Bool.false_eq_true, if_false, if_true]
    have hm : sourcesMarkup (some (s :: rest))
        = ((s :: rest).map fun u => linkMarkup u (sourceLabel u)).flatten := rfl
    rw [hm, hread]
    rfl

/-- A value with a string under `verdict` is an object. -/
theorem obj_of_verdict (data : JVal) (verdict : JStr)
    (hv : getOwn data "verdict" = .str verdict) : ∃ kvs, data = .obj kvs := by
  cases data with
  | obj kvs => exact ⟨kvs, rfl⟩
  | str s => simp [getOwn] at hv
  | arr xs => simp [getOwn] at hv
  | _ => simp [getOwn] at hv

/-- The card that `showVerdict` appends, for a result with a string verdict
and a `relevant_sources` that is absent, `null` or a sequence of strings. -/
theorem showVerdict_eq (now : Nat) (data : JVal) (p : Page) (verdict : JStr) (isNull : Bool)
    (srcs : Option (List JStr)) (hv : getOwn data "verdict" = .str verdict)
    (hs : getOwn data "relevant_sources" = sourcesField isNull srcs) :
    showVerdict now data p = .done { p with
      chatWindow := p.chatWindow ++
        [.card (utf16 "verdict-card " ++ toLowerCase verdict)
          (cardMarkup (gaugeIdOf now) verdict (toStr (getOwn data "confidence"))
            (sourcesMarkup srcs) (deepfakeMarkup (getOwn data "deepfake"))
            (if truthy (getOwn data "ledger_status") then utf16 "Recorded"
              else utf16 "Failed"))
          none]
      charts := p.charts ++
        [⟨gaugeIdOf now, getOwn data "confidence",
          (toNumber (getOwn data "confidence")).map fun c => 100 - c⟩] } := by
  obtain ⟨kvs, rfl⟩ := obj_of_verdict data verdict hv
  have hb := sourcesBlock_eq (.obj kvs) isNull srcs (by rw [← hs]; rfl)
  have hp : ∀ name, prop (.obj kvs) name = .ok (getOwn (.obj kvs) name) := fun _ => rfl
  simp only [showVerdict, verdictCard, deepfakeBlock, hp, hv, hb, bind, Except.bind, pure,
    Except.pure, toStr]

/-- C6, as stated, fails: for the result `quotedBody`, whose one source holds
a quoted word, `showVerdict` appends a card whose sources block is the markup
of that source put unescaped between the fixed pieces; read as HTML, the link
it spells has for target the source cut at its first double quote, not the
full source string that the claim describes. -/
theorem C6_quoted_source_counterexample :
    (showVerdict 1700 quotedBody blankPage).page.chatWindow =
        [.card (utf16 "verdict-card false")
          (cardMarkup (gaugeIdOf 1700) (utf16 "False") (utf16 "92")
            (linkMarkup quotedSource quotedSource) [] (utf16 "Failed")) none]
    ∧ sourcesBlock quotedBody = .ok (linkMarkup quotedSource quotedSource)
    ∧ readSources (linkMarkup quotedSource quotedSource)
        = some (.links [⟨utf16 "https://example.org/?q=", quotedSource⟩])
    ∧ sourcesReference (some [quotedSource]) = .links [⟨quotedSource, quotedSource⟩]
    ∧ readSources (linkMarkup quotedSource quotedSource)
        ≠ some (sourcesReference (some [quotedSource])) :=
  ⟨rfl, rfl, by decide, rfl, by decide⟩

/-- C6, amended: for a result with a string verdict whose `relevant_sources`
is absent, `null` or a sequence of source strings, `showVerdict` appends to the
chat log one card whose sources block is the markup `sourcesMarkup` (one
`<a href=".." target="_blank">..</a>` per source, in input order, source and
label unescaped); that markup is the literal `No sources available` if and
only if the sequence is absent or empty; and when no source holds `&`, a double
quote, `<`, a carriage return or NUL, the block read as HTML is the reference
of the specification: the literal for an absent or empty sequence, otherwise
one link per source in input order, whose target is the full source and whose
label is its first 50 characters followed by `...` when it is longer than 50
characters and the source itself otherwise. -/
theorem C6_plain_sources_rendered (now : Nat) (data : JVal) (p : Page) (verdict : JStr)
    (isNull : Bool) (srcs : Option (List JStr))
    (hv : getOwn data "verdict" = .str verdict)
    (hs : getOwn data "relevant_sources" = sourcesField isNull srcs) :
    showVerdict now data p = .done { p with
      chatWindow := p.chatWindow ++
        [.card (utf16 "verdict-card " ++ toLowerCase verdict)
          (cardMarkup (gaugeIdOf now) verdict (toStr (getOwn data "confidence"))
            (sourcesMarkup srcs) (deepfakeMarkup (getOwn data "deepfake"))
            (if truthy (getOwn data "ledger_status") then utf16 "Recorded"
              else utf16 "Failed"))
          none]
      charts := p.charts ++
        [⟨gaugeIdOf now, getOwn data "confidence",
          (toNumber (getOwn data "confidence")).map fun c => 100 - c⟩] }
    ∧ sourcesBlock data = .ok (sourcesMarkup srcs)
    ∧ (sourcesMarkup srcs = utf16 "No sources available" ↔ srcs = none ∨ srcs = some [])
    ∧ ((∀ s ∈ srcs.getD [], ∀ c ∈ s, isMarkupUnit c = false) →
        readSources (sourcesMarkup srcs) = some (sourcesReference srcs)
        ∧ (readSources (sourcesMarkup srcs) = some (.text (utf16 "No sources available"))
            ↔ srcs = none ∨ srcs = some [])) := by
  obtain ⟨kvs, hobj⟩ := obj_of_verdict data verdict hv
  refine ⟨showVerdict_eq now data p verdict isNull srcs hv hs, ?_,
    sourcesMarkup_literal_iff srcs, fun hplain => ?_⟩
  · subst hobj
    exact sourcesBlock_eq (.obj kvs) isNull srcs (by rw [← hs]; rfl)
  · have hr := readSources_sourcesMarkup srcs hplain
    refine ⟨hr, ?_⟩
    rw [hr]
    constructor
    · intro h
      exact (sourcesReference_text_iff srcs).mp (Option.some.inj h)
    · intro h
      rw [(sourcesReference_text_iff srcs).mpr h]

/-- C6, amended, on a result with a short source and a source of 60
characters, shown on a page that already holds a message, and on a result whose
`relevant_sources` is `null`. -/
theorem C6_plain_sources_rendered_witness :
    getOwn twoSourcesBody "verdict" = .str (utf16 "False")
    ∧ getOwn twoSourcesBody "relevant_sources"
        = sourcesField false (some [utf16 "https://nasa.gov/apollo", longSource])
    ∧ (∀ s ∈ [utf16 "https://nasa.gov/apollo", longSource], ∀ c ∈ s, isMarkupUnit c = false)
    ∧ (showVerdict 1700 twoSourcesBody (addMessage (utf16 "hello") "user" blankPage)).page.chatWindow
        = [chatEntry "user" (utf16 "hello"),
            .card (utf16 "verdict-card false")
              (cardMarkup (gaugeIdOf 1700) (utf16 "False") (utf16 "92")
                (linkMarkup (utf16 "https://nasa.gov/apollo") (utf16 "https://nasa.gov/apollo")
                  ++ linkMarkup longSource
                    (utf16 "https://example.org/" ++ List.replicate 30 0x61 ++ utf16 "..."))
                [] (utf16 "Failed")) none]
    ∧ readSources (sourcesMarkup (some [utf16 "https://nasa.gov/apollo", longSource]))
        = some (.links [⟨utf16 "https://nasa.gov/apollo", utf16 "https://nasa.gov/apollo"⟩,
            ⟨longSource, utf16 "https://example.org/" ++ List.replicate 30 0x61 ++ utf16 "..."⟩])
    ∧ readSources (sourcesMarkup none) = some (.text (utf16 "No sources available")) :=
  ⟨rfl, rfl, by decide,
    (congrArg (fun o => o.page.chatWindow)
      (C6_plain_sources_rendered 1700 twoSourcesBody (addMessage (utf16 "hello") "user" blankPage)
        (utf16 "False") false (some [utf16 "https://nasa.gov/apollo", longSource])
        rfl rfl).1).trans rfl,
    ((C6_plain_sources_rendered 1700 twoSourcesBody blankPage (utf16 "False") false
      (some [utf16 "https://nasa.gov/apollo", longSource]) rfl rfl).2.2.2 (by decide)).1,
    ((C6_plain_sources_rendered 1700
      (mkObj [("verdict", mkStr "True"), ("relevant_sources", .null)]) blankPage (utf16 "True")
      true none rfl rfl).2.2.2 (by decide)).1⟩

theorem prop_of_isPresent (v : JVal) (name : String) (h : isPresent v = true) :
    prop v name = .ok (getOwn v name) := by
  cases v <;> simp_all [isPresent, prop]

theorem index_of_isPresent (v : JVal) (i : Nat) (h : isPresent v = true) :
    index v i = .ok (getIndex v i) := by
  cases v <;> simp_all [isPresent, index]

theorem mapExcept_nodeElement (nodes : List JVal) (h : ∀ n ∈ nodes, isPresent n = true) :
    mapExcept nodeElement nodes = .ok (nodes.map nodeOf) := by
  induction nodes with
  | nil => rfl
  | cons n rest ih =>
    have hn := h n (List.mem_cons_self _ _)
    have hr := ih fun m hm => h m (List.mem_cons_of_mem _ hm)
    simp [mapExcept, nodeElement, prop_of_isPresent _ _ hn, hr, bind, Except.bind, pure,
      Except.pure, nodeOf]

theorem mapExcept_edgeElement (edges : List JVal) (h : ∀ e ∈ edges, isPresent e = true) :
    mapExcept edgeElement edges = .ok (edges.map edgeOf) := by
  induction edges with
  | nil => rfl
  | cons e rest ih =>
    have he := h e (List.mem_cons_self _ _)
    have hr := ih fun m hm => h m (List.mem_cons_of_mem _ hm)
    simp [mapExcept, edgeElement, index_of_isPresent _ _ he, hr, bind, Except.bind, pure,
      Except.pure, edgeOf]

theorem truthy_of_getOwn_arr (g : JVal) (name : String) (xs : List JVal)
    (h : getOwn g name = .arr xs) : truthy g = true ∧ isPresent g = true := by
  cases g <;> simp_all [getOwn, truthy, isPresent]
  all_goals (split at h <;> simp at h)

/-- C7: for a provenance object whose graph or whose `nodes` collection is
missing (`undefined`, or any other falsy value such as `null`),
`showProvenance` leaves the container with exactly the text
`No provenance data.`, no graph in it, and does not call the graph widget; for
a provenance object whose graph has a `nodes` and an `edges` collection (no
entry being `null`), it calls the widget once, with one node element per node
in order (id, label = id, role) followed by one edge element per edge pair in
order (source = first component, target = second), that is
`|nodes| + |edges|` elements, drawn in the emptied container. -/
theorem C7_provenance_rendering (kvs : List (JStr × JVal)) (p : Page) :
    ((truthy (getOwn (.obj kvs) "provenance_graph") = false
        ∨ truthy (getOwn (getOwn (.obj kvs) "provenance_graph") "nodes") = false) →
      showProvenance (.obj kvs) p
          = .done { p with provGraph := ⟨utf16 "No provenance data.", none⟩ }
        ∧ (showProvenance (.obj kvs) p).page.graphs = p.graphs)
    ∧ (∀ nodes edges : List JVal,
        getOwn (getOwn (.obj kvs) "provenance_graph") "nodes" = .arr nodes →
        getOwn (getOwn (.obj kvs) "provenance_graph") "edges" = .arr edges →
        (∀ n ∈ nodes, isPresent n = true) → (∀ e ∈ edges, isPresent e = true) →
        showProvenance (.obj kvs) p
          = .done { p with
              provGraph := ⟨[], some (nodes.map nodeOf ++ edges.map edgeOf)⟩
              graphs := p.graphs ++ [nodes.map nodeOf ++ edges.map edgeOf] }
        ∧ (nodes.map nodeOf ++ edges.map edgeOf).length = nodes.length + edges.length) := by
  constructor
  · intro h
    have hc : (!truthy (getOwn (.obj kvs) "provenance_graph")
        || !truthy (getOwn (getOwn (.obj kvs) "provenance_graph") "nodes")) = true := by
      rcases h with h | h <;> simp [h]
    have hs : showProvenance (.obj kvs) p
        = .done { p with provGraph := ⟨utf16 "No provenance data.", none⟩ } := by
      simp only [showProvenance, prop, Outcome.eval, hc, if_true]
    exact ⟨hs, by rw [hs]; rfl⟩
  · intro nodes edges hn he hnp hep
    obtain ⟨hg, hgp⟩ := truthy_of_getOwn_arr _ _ _ hn
    have hc : (!truthy (getOwn (.obj kvs) "provenance_graph")
        || !truthy (getOwn (getOwn (.obj kvs) "provenance_graph") "nodes")) = false := by
      rw [hg, hn]
      rfl
    have hel : provElements (getOwn (.obj kvs) "provenance_graph")
        = .ok (nodes.map nodeOf ++ edges.map edgeOf) := by
      simp [provElements, prop_of_isPresent _ _ hgp, hn, he, mapArray,
        mapExcept_nodeElement _ hnp, mapExcept_edgeElement _ hep, bind, Except.bind, pure,
        Except.pure]
    constructor
    · simp only [showProvenance, prop, Outcome.eval, hc, hel]
      rfl
    · simp

/-- C7 on a provenance object without `nodes` and on one with two nodes and
one edge, drawn on a page that showed the default text. -/
theorem C7_provenance_rendering_witness :
    showProvenance (mkObj [("provenance_graph", mkObj [("edges", .arr [])])]) stalePage
      = .done { stalePage with provGraph := ⟨utf16 "No provenance data.", none⟩ }
    ∧ showProvenance smallProvenance stalePage
      = .done { stalePage with
          provGraph := ⟨[], some [.node (mkStr "a") (mkStr "a") (mkStr "origin"),
            .node (mkStr "b") (mkStr "b") (mkStr "amplifier"),
            .edge (mkStr "a") (mkStr "b")]⟩
          graphs := [[.node (mkStr "a") (mkStr "a") (mkStr "origin"),
            .node (mkStr "b") (mkStr "b") (mkStr "amplifier"),
            .edge (mkStr "a") (mkStr "b")]] } :=
  ⟨((C7_provenance_rendering
      [(utf16 "provenance_graph", mkObj [("edges", .arr [])])] stalePage).1 (Or.inr rfl)).1,
    ((C7_provenance_rendering
      [(utf16 "provenance_graph", mkObj [
        ("nodes", .arr [mkObj [("id", mkStr "a"), ("role", mkStr "origin")],
                        mkObj [("id", mkStr "b"), ("role", mkStr "amplifier")]]),
        ("edges", .arr [.arr [mkStr "a", mkStr "b"]])])] stalePage).2
      [mkObj [("id", mkStr "a"), ("role", mkStr "origin")],
        mkObj [("id", mkStr "b"), ("role", mkStr "amplifier")]]
      [.arr [mkStr "a", mkStr "b"]] rfl rfl
      (by simp [mkObj, isPresent]) (by simp [isPresent])).1⟩

theorem fallacyChips_congr (r : JVal) (p q : Page)
    (h : reasoningRegions p = reasoningRegions q) :
    reasoningRegions (fallacyChips r p).page = reasoningRegions (fallacyChips r q).page
    ∧ (fallacyChips r p).thrown = (fallacyChips r q).thrown := by
  simp only [reasoningRegions, ReasoningRegions.mk.injEq] at h
  obtain ⟨h1, h2, h3, h4, h5⟩ := h
  unfold fallacyChips Outcome.eval
  cases prop r "fallacy" with
  | error e => simp [Outcome.throw, reasoningRegions, *]
  | ok v =>
    simp only
    split <;> simp [Outcome.done, Outcome.throw, reasoningRegions, *]

theorem biasChips_congr (r : JVal) (p q : Page)
    (h : reasoningRegions p = reasoningRegions q) :
    reasoningRegions (biasChips r p).page = reasoningRegions (biasChips r q).page
    ∧ (biasChips r p).thrown = (biasChips r q).thrown := by
  simp only [reasoningRegions, ReasoningRegions.mk.injEq] at h
  obtain ⟨h1, h2, h3, h4, h5⟩ := h
  unfold biasChips Outcome.eval
  cases prop r "bias" with
  | error e => simp [Outcome.throw, reasoningRegions, *]
  | ok v =>
    simp only
    split <;> simp [Outcome.done, Outcome.throw, reasoningRegions, *]

theorem reasoningTexts_congr (r : JVal) (p q : Page)
    (h : reasoningRegions p = reasoningRegions q) :
    reasoningRegions (reasoningTexts r p).page = reasoningRegions (reasoningTexts r q).page
    ∧ (reasoningTexts r p).thrown = (reasoningTexts r q).thrown := by
  simp only [reasoningRegions, ReasoningRegions.mk.injEq] at h
  obtain ⟨h1, h2, h3, h4, h5⟩ := h
  unfold reasoningTexts Outcome.eval
  cases prop r "debiased_text" with
  | error e => simp [Outcome.throw, reasoningRegions, *]
  | ok d =>
    cases prop r "explanation" with
    | error e => simp [Outcome.throw, reasoningRegions, *]
    | ok x =>
      cases prop r "generative_explainer" with
      | error e => simp [Outcome.throw, reasoningRegions, *]
      | ok g =>
        by_cases t1 : truthy d = true <;> by_cases t2 : truthy x = true <;>
          by_cases t3 : truthy g = true <;>
          simp [Outcome.done, reasoningRegions, *]

theorem andThen_congr (o o' : Outcome) (f : Page → Outcome)
    (h : reasoningRegions o.page = reasoningRegions o'.page ∧ o.thrown = o'.thrown)
    (hf : ∀ p q, reasoningRegions p = reasoningRegions q →
      reasoningRegions (f p).page = reasoningRegions (f q).page ∧ (f p).thrown = (f q).thrown) :
    reasoningRegions (o.andThen f).page = reasoningRegions (o'.andThen f).page
    ∧ (o.andThen f).thrown = (o'.andThen f).thrown := by
  unfold Outcome.andThen
  rw [← h.2]
  cases o.thrown with
  | none => exact hf _ _ h.1
  | some e => exact ⟨h.1, h.2⟩

/-- The reasoning regions after `showReasoning`, and the way it ends, do not
depend on the page it started from. -/
theorem showReasoning_regions (r : JVal) (p q : Page) :
    reasoningRegions (showReasoning r p).page = reasoningRegions (showReasoning r q).page
    ∧ (showReasoning r p).thrown = (showReasoning r q).thrown := by
  unfold showReasoning
  refine andThen_congr _ _ _ (fallacyChips_congr r _ _ rfl) fun p q h => ?_
  exact andThen_congr _ _ _ (biasChips_congr r _ _ h) fun p q h => reasoningTexts_congr r _ _ h

theorem chipsOf_str (className : String) (tags : List JStr) :
    chipsOf className (tags.map .str) = tagChips className tags := by
  simp [chipsOf, tagChips, innerTextOf, toStr]

theorem tagsField_chips (className : String) (tags : Option (List JStr)) :
    ∃ xs, orElse (tagsField tags) (.arr []) = .arr xs
      ∧ chipsOf className xs = tagChips className (tags.getD []) := by
  cases tags with
  | none => exact ⟨[], rfl, rfl⟩
  | some l => exact ⟨l.map .str, rfl, chipsOf_str _ _⟩

theorem textField_line (label : String) (field : Option JStr) :
    (if truthy (textField field) then utf16 label ++ toStr (textField field) else [])
      = textLine label field := by
  cases field with
  | none => rfl
  | some s => cases s <;> simp [textField, truthy, textLine, toStr]

/-- C8: after `showReasoning(r1)` followed by `showReasoning(r2)` the
reasoning regions are the ones `showReasoning(r2)` produces from any page
whatsoever, so nothing of `r1` remains; and for a payload `r2` whose `fallacy`
and `bias` are absent or sequences of tags and whose three texts are absent or
strings, the call ends normally with exactly one chip per tag of `r2`, in
order and without merging duplicates, and each text region holds its
fixed-label line when the field is present and non-empty and is empty
otherwise. -/
theorem C8_reasoning_overwrite (r1 r2 : JVal) (p q : Page) :
    reasoningRegions (showReasoning r2 (showReasoning r1 p).page).page
      = reasoningRegions (showReasoning r2 q).page
    ∧ (∀ (kvs : List (JStr × JVal)) (fallacy bias : Option (List JStr))
        (debiased explanation explainer : Option JStr),
        r2 = .obj kvs →
        getOwn r2 "fallacy" = tagsField fallacy → getOwn r2 "bias" = tagsField bias →
        getOwn r2 "debiased_text" = textField debiased →
        getOwn r2 "explanation" = textField explanation →
        getOwn r2 "generative_explainer" = textField explainer →
        (showReasoning r2 (showReasoning r1 p).page).thrown = none
        ∧ reasoningRegions (showReasoning r2 (showReasoning r1 p).page).page
          = ⟨tagChips "chip fallacy" (fallacy.getD []), tagChips "chip bias" (bias.getD []),
              textLine "Debiased: " debiased, textLine "Explanation: " explanation,
              textLine "Generative Explainer: " explainer⟩) := by
  refine ⟨(showReasoning_regions r2 _ _).1, ?_⟩
  intro kvs fallacy bias debiased explanation explainer hr hf hb hd he hg
  subst hr
  obtain ⟨fs, hfs, hfc⟩ := tagsField_chips "chip fallacy" fallacy
  obtain ⟨bs, hbs, hbc⟩ := tagsField_chips "chip bias" bias
  have h1 := textField_line "Debiased: " debiased
  have h2 := textField_line "Explanation: " explanation
  have h3 := textField_line "Generative Explainer: " explainer
  generalize (showReasoning r1 p).page = s
  simp only [showReasoning, fallacyChips, biasChips, reasoningTexts, Outcome.andThen,
    Outcome.eval, Outcome.done, prop, hf, hb, hd, he, hg, hfs, hbs, clearReasoning,
    reasoningRegions]
  rw [← hfc, ← hbc, ← h1, ← h2, ← h3]
  by_cases t1 : truthy (textField debiased) = true <;>
    by_cases t2 : truthy (textField explanation) = true <;>
    by_cases t3 : truthy (textField explainer) = true <;>
    simp [t1, t2, t3]

/-- C8 on `biasOnlyReasoning` followed by `sampleReasoning`: the bias chip of
the first payload is gone, the repeated fallacy tag gives two chips, the empty
explanation leaves its region empty. -/
theorem C8_reasoning_overwrite_witness :
    reasoningRegions (showReasoning sampleReasoning (showReasoning biasOnlyReasoning
        stalePage).page).page
      = ⟨[⟨utf16 "chip fallacy", utf16 "strawman"⟩, ⟨utf16 "chip fallacy", utf16 "strawman"⟩],
          [], utf16 "Debiased: Calmer wording", [], []⟩
    ∧ (showReasoning biasOnlyReasoning stalePage).page.biases
      = [⟨utf16 "chip bias", utf16 "confirmation bias"⟩] :=
  ⟨((C8_reasoning_overwrite biasOnlyReasoning sampleReasoning stalePage blankPage).2
      _ (some [utf16 "strawman", utf16 "strawman"]) none (some (utf16 "Calmer wording"))
      (some []) none rfl rfl rfl rfl rfl rfl).2,
    rfl⟩

/-- C9, evaluated where the code departs from it: after one successful
submission the button of the card exports the result shown; after a second
successful submission the chat log holds two cards, `enableDownload` has bound
the button of the first card (the first element with the identifier
`download-json`) to the second result, and the button of the most recent card
has no handler, so that triggering it produces no artifact. -/
theorem C9_latest_card_unbound :
    (∃ cls html, afterOne.chatWindow =
        [chatEntry "user" (utf16 "The moon landing was faked"), .card cls html (some firstBody)])
    ∧ (clickDownload 1 afterOne).downloads =
        [⟨utf16 "truthlens_report.json", jsonStringify firstBody 2, utf16 "application/json"⟩]
    ∧ (∃ cls1 html1 cls2 html2, afterTwo.chatWindow =
        [chatEntry "user" (utf16 "The moon landing was faked"),
          .card cls1 html1 (some secondBody),
          chatEntry "user" (utf16 "The earth is round"),
          .card cls2 html2 none])
    ∧ afterTwo.consoleErrors = []
    ∧ (clickDownload 3 afterTwo).downloads = []
    ∧ (clickDownload 1 afterTwo).downloads =
        [⟨utf16 "truthlens_report.json", jsonStringify secondBody 2, utf16 "application/json"⟩] :=
  ⟨⟨_, _, rfl⟩, rfl, ⟨_, _, _, _, rfl⟩, rfl, rfl, rfl⟩

theorem sendClick_never_throws (reply : NetReply) (now : Nat) (p : Page) :
    (sendClick reply now p).thrown = none := by
  unfold sendClick
  split
  · rfl
  · unfold sendFinish
    simp only
    split <;> rfl

theorem ledgerClick_never_throws (reply : NetReply) (p : Page) :
    (ledgerClick reply p).thrown = none := by
  unfold ledgerClick
  simp only
  split
  · assumption
  · rfl

/-- C10, evaluated where the code departs from it: the vote handler has no
`try`, so a rejected transport, a body that is not JSON, or a `null` body make
the exception leave the handler, whatever the button and the page; the send
handler and the ledger-proof handler never let an exception out, and the
ledger-proof handler then shows its alert. -/
theorem C10_vote_failure_escapes (upvote : Bool) (p : Page) :
    (voteClick upvote .rejected p).thrown = some .fetchFailed
    ∧ (∀ ok, (voteClick upvote (.response ok none) p).thrown = some .syntaxError)
    ∧ (∀ ok, (voteClick upvote (.response ok (some .null)) p).thrown = some .typeError)
    ∧ (∀ reply now, (sendClick reply now p).thrown = none)
    ∧ (∀ reply, (ledgerClick reply p).thrown = none)
    ∧ (ledgerClick .rejected p).page.alerts = p.alerts
        ++ [utf16 "⚠️ Could not fetch ledger proof. Please try again."] :=
  ⟨rfl, fun _ => rfl, fun _ => rfl, fun reply now => sendClick_never_throws reply now p,
    fun reply => ledgerClick_never_throws reply p, rfl⟩

end TruthLens
